import Mathlib

/-! # Koyeb Terraform provider: field codec and resource lifecycle

A shallow embedding of `koyeb/resource_koyeb_service.go` and
`koyeb/resource_koyeb_app.go`.

* Go `interface{}` values are the type `Val`; a `map[string]interface{}` is an
  association list `GoMap`.
* A Go pointer `*T` is `Option T` (`none` is the nil pointer).
* A function that can panic at run time (nil dereference, failed type
  assertion, index out of range) returns `Option`; `none` is the panic.
* Remote calls go through a `Client σ`, a record of state-passing functions
  over an arbitrary remote state `σ`; every operation returns the events it
  emitted, in order.
-/

set_option autoImplicit false

namespace Koyeb

/-! ## Go values -/

/-- Go values stored behind `interface{}` by the configuration layer and by the
flatteners.  `set` is a `*schema.Set` given by the list its `List()` method
returns.  The `p*` constructors are Go pointers stored in an interface. -/
inductive Val where
  | nil
  | str (s : String)
  | int (n : Int)
  | int64 (n : Int)
  | bool (b : Bool)
  | pstr (p : Option String)
  | pint64 (p : Option Int)
  | pbool (p : Option Bool)
  | pstrs (p : Option (List String))
  | list (xs : List Val)
  | set (xs : List Val)
  | map (kv : List (String × Val))

/-- A Go `map[string]interface{}`. -/
abbrev GoMap := List (String × Val)

/-- Map indexing `m[k]`: the nil interface when the key is absent. -/
def GoMap.get (m : GoMap) (k : String) : Val :=
  match m.lookup k with
  | some v => v
  | none => Val.nil

/-- Map assignment `m[k] = v`. -/
def GoMap.put (m : GoMap) (k : String) (v : Val) : GoMap :=
  (k, v) :: m.filter (fun e => e.1 != k)

/-- Whether the map has an entry for `k` (the comma-ok test `_, ok := m[k]`). -/
def GoMap.has (m : GoMap) (k : String) : Bool :=
  (m.lookup k).isSome

/-- Comparison with the nil interface, `v != nil`. -/
def Val.notNil : Val → Bool
  | Val.nil => false
  | _ => true

/-- Type assertion `v.(string)`; `none` is the panic. -/
def Val.asString : Val → Option String
  | Val.str s => some s
  | _ => none

/-- Type assertion `v.(int)`. -/
def Val.asInt : Val → Option Int
  | Val.int n => some n
  | _ => none

/-- Type assertion `v.(bool)`. -/
def Val.asBool : Val → Option Bool
  | Val.bool b => some b
  | _ => none

/-- Type assertion `v.(map[string]interface{})`. -/
def Val.asMap : Val → Option GoMap
  | Val.map kv => some kv
  | _ => none

/-- Type assertion `v.([]interface{})`. -/
def Val.asList : Val → Option (List Val)
  | Val.list xs => some xs
  | _ => none

/-- The expression `v.(*schema.Set).List()`. -/
def Val.asSetList : Val → Option (List Val)
  | Val.set xs => some xs
  | _ => none

/-- Modelled from the spec: `toOpt` is declared in a file of the repository
that is not among the sources; every call site assigns its result to an
optional (pointer) field, and the spec asks the encoding to "track presence,
not just value", so it is the address-of helper: the result is always set. -/
def toOpt {α : Type} (v : α) : Option α := some v

/-- Modelled from the spec: `Ptr` is declared next to `toOpt`, outside the
sources; it is used the same way, to fill the optional `Name` of `CreateApp`. -/
def Ptr {α : Type} (v : α) : Option α := some v

/-! ## Remote representations (generated API client structs) -/

structure DeploymentEnv where
  Key : Option String := none
  Value : Option String := none
  Secret : Option String := none
  deriving DecidableEq, Repr

structure DeploymentPort where
  Port : Option Int := none
  Protocol : Option String := none
  deriving DecidableEq, Repr

structure DeploymentRoute where
  Port : Option Int := none
  Path : Option String := none
  deriving DecidableEq, Repr

structure DeploymentInstanceType where
  Type_ : Option String := none
  deriving DecidableEq, Repr

structure DeploymentScaling where
  Min : Option Int := none
  Max : Option Int := none
  deriving DecidableEq, Repr

structure DockerSource where
  Image : Option String := none
  Command : Option String := none
  Args : Option (List String) := none
  ImageRegistrySecret : Option String := none
  deriving DecidableEq, Repr

structure GitSource where
  Repository : Option String := none
  Branch : Option String := none
  BuildCommand : Option String := none
  RunCommand : Option String := none
  NoDeployOnPush : Option Bool := none
  deriving DecidableEq, Repr

structure DeploymentDefinition where
  Name : Option String := none
  Routes : Option (List DeploymentRoute) := none
  Ports : Option (List DeploymentPort) := none
  Env : Option (List DeploymentEnv) := none
  Regions : Option (List String) := none
  Scalings : Option (List DeploymentScaling) := none
  InstanceTypes : Option (List DeploymentInstanceType) := none
  Docker : Option DockerSource := none
  Git : Option GitSource := none
  deriving DecidableEq, Repr

/-- The generated accessor `GetValueOk`: the pointer and whether it is set. -/
def DeploymentEnv.GetValueOk (o : DeploymentEnv) : Option String × Bool :=
  match o.Value with
  | none => (none, false)
  | some v => (some v, true)

/-- The generated accessor `GetSecretOk`. -/
def DeploymentEnv.GetSecretOk (o : DeploymentEnv) : Option String × Bool :=
  match o.Secret with
  | none => (none, false)
  | some v => (some v, true)

/-! ## Field codec: environment variables -/

/-- One iteration of the loop of `expandEnvs`. -/
def expandEnv (rawEnv : Val) : Option DeploymentEnv := do
  let env ← rawEnv.asMap
  let key ← (env.get "key").asString
  let e : DeploymentEnv := { Key := toOpt key }
  let e ←
    if (env.get "value").notNil then do
      let v ← (env.get "value").asString
      if v != "" then pure { e with Value := toOpt v } else pure e
    else pure e
  let e ←
    if (env.get "secret").notNil then do
      let s ← (env.get "secret").asString
      if s != "" then pure { e with Secret := toOpt s } else pure e
    else pure e
  pure e

/-- `expandEnvs`: the result pointer is never nil, so a returned value is the
slice itself. -/
def expandEnvs (config : List Val) : Option (List DeploymentEnv) :=
  config.mapM expandEnv

/-- One iteration of the loop of `flattenEnvs`. -/
def flattenEnv (env : DeploymentEnv) : Option GoMap := do
  let r : GoMap := []
  let key ← env.Key
  let r := r.put "key" (Val.str key)
  let r := if env.GetValueOk.2 then r.put "value" (Val.pstr env.GetValueOk.1) else r
  let r := if env.GetSecretOk.2 then r.put "secret" (Val.pstr env.GetSecretOk.1) else r
  pure r

/-- `flattenEnvs`: dereferences the slice pointer, then each `Key`. -/
def flattenEnvs (envs : Option (List DeploymentEnv)) : Option (List GoMap) := do
  let l ← envs
  l.mapM flattenEnv

/-! ## Field codec: ports, routes, instance types, scalings -/

/-- One iteration of the loop of `expandPorts`. -/
def expandPort (rawPort : Val) : Option DeploymentPort := do
  let port ← rawPort.asMap
  let n ← (port.get "port").asInt
  let proto ← (port.get "protocol").asString
  pure { Port := toOpt n, Protocol := toOpt proto }

def expandPorts (config : List Val) : Option (List DeploymentPort) :=
  config.mapM expandPort

/-- One iteration of the loop of `flattenPorts`: both pointers are
dereferenced. -/
def flattenPort (port : DeploymentPort) : Option GoMap := do
  let r : GoMap := []
  let n ← port.Port
  let r := r.put "port" (Val.int64 n)
  let proto ← port.Protocol
  let r := r.put "protocol" (Val.str proto)
  pure r

def flattenPorts (ports : Option (List DeploymentPort)) : Option (List GoMap) := do
  let l ← ports
  l.mapM flattenPort

/-- One iteration of the loop of `expandRoutes`. -/
def expandRoute (rawRoute : Val) : Option DeploymentRoute := do
  let route ← rawRoute.asMap
  let n ← (route.get "port").asInt
  let path ← (route.get "path").asString
  pure { Port := toOpt n, Path := toOpt path }

def expandRoutes (config : List Val) : Option (List DeploymentRoute) :=
  config.mapM expandRoute

/-- One iteration of the loop of `flattenRoutes`: the pointers themselves are
stored. -/
def flattenRoute (route : DeploymentRoute) : GoMap :=
  let r : GoMap := []
  let r := r.put "port" (Val.pint64 route.Port)
  let r := r.put "path" (Val.pstr route.Path)
  r

def flattenRoutes (routes : Option (List DeploymentRoute)) : Option (List GoMap) := do
  let l ← routes
  pure (l.map flattenRoute)

/-- One iteration of the loop of `expandInstanceTypes`. -/
def expandInstanceType (rawInstanceType : Val) : Option DeploymentInstanceType := do
  let instanceType ← rawInstanceType.asMap
  let t ← (instanceType.get "type").asString
  pure { Type_ := toOpt t }

def expandInstanceTypes (config : List Val) : Option (List DeploymentInstanceType) :=
  config.mapM expandInstanceType

/-- One iteration of the loop of `flattenInstanceTypes`. -/
def flattenInstanceType (instanceType : DeploymentInstanceType) : GoMap :=
  let r : GoMap := []
  r.put "type" (Val.pstr instanceType.Type_)

def flattenInstanceTypes (instanceTypes : Option (List DeploymentInstanceType)) :
    Option (List GoMap) := do
  let l ← instanceTypes
  pure (l.map flattenInstanceType)

/-- One iteration of the loop of `expandScalings`; `max` is read before
`min`. -/
def expandScaling (rawScaling : Val) : Option DeploymentScaling := do
  let scaling ← rawScaling.asMap
  let mx ← (scaling.get "max").asInt
  let mn ← (scaling.get "min").asInt
  pure { Max := toOpt mx, Min := toOpt mn }

/-- `expandScalings`.  The source also builds a diagnostic with `diag.Errorf`
before the loop and discards it; that statement has no effect. -/
def expandScalings (config : List Val) : Option (List DeploymentScaling) :=
  config.mapM expandScaling

/-- One iteration of the loop of `flattenScalings`. -/
def flattenScaling (scaling : DeploymentScaling) : Option GoMap := do
  let r : GoMap := []
  let mx ← scaling.Max
  let r := r.put "max" (Val.int64 mx)
  let mn ← scaling.Min
  let r := r.put "min" (Val.int64 mn)
  pure r

def flattenScalings (scalings : Option (List DeploymentScaling)) : Option (List GoMap) := do
  let l ← scalings
  l.mapM flattenScaling

/-! ## Field codec: sources -/

/-- `expandDockerSource`: reads `config[0]`; `command` and
`image_registry_secret` are guarded by a nil test, `args` is not. -/
def expandDockerSource (config : List Val) : Option DockerSource := do
  let rawDockerSource ← (← config.head?).asMap
  let image ← (rawDockerSource.get "image").asString
  let dockerSource : DockerSource := { Image := toOpt image }
  let dockerSource ←
    if (rawDockerSource.get "command").notNil then do
      let c ← (rawDockerSource.get "command").asString
      pure { dockerSource with Command := toOpt c }
    else pure dockerSource
  let rawArgs ← (rawDockerSource.get "args").asList
  let args ← rawArgs.mapM Val.asString
  let dockerSource := { dockerSource with Args := toOpt args }
  let dockerSource ←
    if (rawDockerSource.get "image_registry_secret").notNil then do
      let s ← (rawDockerSource.get "image_registry_secret").asString
      pure { dockerSource with ImageRegistrySecret := toOpt s }
    else pure dockerSource
  pure dockerSource

/-- `flattenDocker`: every field is read through the pointer `dockerSource`,
so a nil pointer panics. -/
def flattenDocker (dockerSource : Option DockerSource) : Option (List Val) := do
  let result : List Val := []
  let ds ← dockerSource
  let r : GoMap := []
  let r := r.put "image" (Val.pstr ds.Image)
  let r := r.put "command" (Val.pstr ds.Command)
  let r := r.put "args" (Val.pstrs ds.Args)
  let r := r.put "image_registry_secret" (Val.pstr ds.ImageRegistrySecret)
  pure (result ++ [Val.map r])

/-- `expandGitSource`: reads `config[0]`; all five keys are type-asserted
without a nil test. -/
def expandGitSource (config : List Val) : Option GitSource := do
  let rawGitSource ← (← config.head?).asMap
  let repository ← (rawGitSource.get "repository").asString
  let branch ← (rawGitSource.get "branch").asString
  let buildCommand ← (rawGitSource.get "build_command").asString
  let runCommand ← (rawGitSource.get "run_command").asString
  let noDeployOnPush ← (rawGitSource.get "no_deploy_on_push").asBool
  pure {
    Repository := toOpt repository
    Branch := toOpt branch
    BuildCommand := toOpt buildCommand
    RunCommand := toOpt runCommand
    NoDeployOnPush := toOpt noDeployOnPush }

/-- `flattenGit`: every field is read through the pointer `gitSource`, so a nil
pointer panics. -/
def flattenGit (gitSource : Option GitSource) : Option (List Val) := do
  let result : List Val := []
  let gs ← gitSource
  let r : GoMap := []
  let r := r.put "repository" (Val.pstr gs.Repository)
  let r := r.put "branch" (Val.pstr gs.Branch)
  let r := r.put "build_command" (Val.pstr gs.BuildCommand)
  let r := r.put "run_command" (Val.pstr gs.RunCommand)
  let r := r.put "no_deploy_on_push" (Val.pbool gs.NoDeployOnPush)
  pure (result ++ [Val.map r])

/-! ## Field codec: regions and the deployment definition -/

/-- `expandRegions`. -/
def expandRegions (regions : List Val) : Option (List String) :=
  regions.mapM Val.asString

/-- `Set.Add` on a set of strings hashed with `schema.HashString`: an element
already present is not added again.  The order in which `List()` later returns
the elements (by hash code) is not modelled; insertion order is kept. -/
def setAdd (xs : List Val) (r : String) : List Val :=
  if xs.any (fun v => v.asString == some r) then xs else xs ++ [Val.str r]

/-- `flattenRegions`: a fresh set to which every region is added. -/
def flattenRegions (regions : Option (List String)) : Option Val := do
  let l ← regions
  pure (Val.set (l.foldl setAdd []))

/-- The expression `f(m[k].(*schema.Set).List())`, the form of every list
field of the struct literal in `expandDeploymentDefinition`. -/
@[noinline]
def expandSet {α : Type} (f : List Val → Option α) (m : GoMap) (k : String) : Option α :=
  (m.get k).asSetList.bind f

/-- The guarded assignment `if len(git) > 0 { deploymentDefinition.Git =
expandGitSource(git) }` of `expandDeploymentDefinition`. -/
@[noinline]
def withGit (deploymentDefinition : DeploymentDefinition) (git : List Val) :
    Option DeploymentDefinition :=
  if git.length > 0 then
    (expandGitSource git).bind fun g => some { deploymentDefinition with Git := some g }
  else some deploymentDefinition

/-- The guarded assignment `if len(docker) > 0 { deploymentDefinition.Docker =
expandDockerSource(docker) }` of `expandDeploymentDefinition`. -/
@[noinline]
def withDocker (deploymentDefinition : DeploymentDefinition) (docker : List Val) :
    Option DeploymentDefinition :=
  if docker.length > 0 then
    (expandDockerSource docker).bind fun dk => some { deploymentDefinition with Docker := some dk }
  else some deploymentDefinition

/-- `expandDeploymentDefinition`: the struct literal (fields evaluated in source
order), then the git block, then the docker block.  Neither block is tested
against the other. -/
def expandDeploymentDefinition (configmap : GoMap) : Option DeploymentDefinition := do
  let rawDeploymentDefinition := configmap
  let name ← (rawDeploymentDefinition.get "name").asString
  let env ← expandSet expandEnvs rawDeploymentDefinition "env"
  let ports ← expandSet expandPorts rawDeploymentDefinition "ports"
  let routes ← expandSet expandRoutes rawDeploymentDefinition "routes"
  let scalings ← expandSet expandScalings rawDeploymentDefinition "scalings"
  let instanceTypes ← expandSet expandInstanceTypes rawDeploymentDefinition "instance_types"
  let regions ← expandSet expandRegions rawDeploymentDefinition "regions"
  let deploymentDefinition : DeploymentDefinition := {
    Name := toOpt name
    Env := some env
    Ports := some ports
    Routes := some routes
    Scalings := some scalings
    InstanceTypes := some instanceTypes
    Regions := some regions }
  let git ← (rawDeploymentDefinition.get "git").asSetList
  let deploymentDefinition ← withGit deploymentDefinition git
  let docker ← (rawDeploymentDefinition.get "docker").asSetList
  let deploymentDefinition ← withDocker deploymentDefinition docker
  pure deploymentDefinition

/-- Wraps a `[]map[string]interface{}` for storage in a map. -/
def mapsVal (ms : List GoMap) : Val := Val.list (ms.map Val.map)

/-- `flattenDeploymentDefinition`: the nine assignments in source order, then
the single map is appended to the result. -/
def flattenDeploymentDefinition (deployment : Option DeploymentDefinition) :
    Option (List Val) := do
  let result : List Val := []
  let dep ← deployment
  let r : GoMap := []
  let r := r.put "name" (Val.pstr dep.Name)
  let r := r.put "docker" (Val.list (← flattenDocker dep.Docker))
  let r := r.put "git" (Val.list (← flattenGit dep.Git))
  let r := r.put "env" (mapsVal (← flattenEnvs dep.Env))
  let r := r.put "ports" (mapsVal (← flattenPorts dep.Ports))
  let r := r.put "routes" (mapsVal (← flattenRoutes dep.Routes))
  let r := r.put "instance_types" (mapsVal (← flattenInstanceTypes dep.InstanceTypes))
  let r := r.put "scalings" (mapsVal (← flattenScalings dep.Scalings))
  let r := r.put "regions" (← flattenRegions dep.Regions)
  pure (result ++ [Val.map r])

/-! ## Remote API: client structs, replies and the client itself -/

/-- A `time.Time`, represented by the text that `t.UTC().String()` renders for
it (the rendering itself belongs to the Go standard library). -/
structure Time where
  utc : String
  deriving DecidableEq, Repr

/-- The zero `time.Time`, which the generated getters return for an unset
timestamp. -/
def Time.zero : Time := { utc := "0001-01-01 00:00:00 +0000 UTC" }

/-- The expression `t.UTC().String()`. -/
def Time.UTCString (t : Time) : String := t.utc

structure Domain where
  Id : Option String := none
  Name : Option String := none
  deriving DecidableEq, Repr

structure App where
  Id : Option String := none
  Name : Option String := none
  OrganizationId : Option String := none
  UpdatedAt : Option Time := none
  CreatedAt : Option Time := none
  Domains : Option (List Domain) := none
  deriving DecidableEq, Repr

/-- The status enumeration of the API client is a named string type. -/
abbrev ServiceStatus := String

def SERVICESTATUS_DELETING : ServiceStatus := "DELETING"

def SERVICESTATUS_DELETED : ServiceStatus := "DELETED"

structure Service where
  Id : Option String := none
  CreatedAt : Option Time := none
  UpdatedAt : Option Time := none
  PausedAt : Option Time := none
  ResumedAt : Option Time := none
  TerminatedAt : Option Time := none
  Name : Option String := none
  OrganizationId : Option String := none
  AppId : Option String := none
  Status : Option ServiceStatus := none
  Messages : Option (List String) := none
  Version : Option String := none
  ActiveDeploymentId : Option String := none
  LatestDeploymentId : Option String := none
  deriving DecidableEq, Repr

structure ServiceListItem where
  Id : Option String := none
  Name : Option String := none
  AppId : Option String := none
  Status : Option ServiceStatus := none
  deriving DecidableEq, Repr

/-- The generated getters return the zero value of the field type when the
pointer is unset. -/
def getString (p : Option String) : String := p.getD ""

def getTime (p : Option Time) : Time := p.getD Time.zero

def App.GetId (a : App) : String := getString a.Id

def App.GetName (a : App) : String := getString a.Name

def App.GetOrganizationId (a : App) : String := getString a.OrganizationId

def App.GetCreatedAt (a : App) : Time := getTime a.CreatedAt

def App.GetUpdatedAt (a : App) : Time := getTime a.UpdatedAt

def ServiceListItem.GetId (i : ServiceListItem) : String := getString i.Id

def ServiceListItem.GetStatus (i : ServiceListItem) : ServiceStatus := getString i.Status

/-- Request body of `CreateApp`. -/
structure CreateApp where
  Name : Option String := none
  deriving DecidableEq, Repr

/-- Request body of `CreateService`. -/
structure CreateService where
  AppId : Option String := none
  Definition : Option DeploymentDefinition := none
  deriving DecidableEq, Repr

/-- Request body of `UpdateService`. -/
structure UpdateService where
  Definition : Option DeploymentDefinition := none
  deriving DecidableEq, Repr

structure CreateAppReply where
  App : Option App := none
  deriving DecidableEq, Repr

structure GetAppReply where
  App : Option App := none
  deriving DecidableEq, Repr

structure ListServicesReply where
  Services : Option (List ServiceListItem) := none
  Limit : Option Int := none
  Offset : Option Int := none
  Count : Option Int := none
  deriving DecidableEq, Repr

def ListServicesReply.GetServices (r : ListServicesReply) : List ServiceListItem :=
  r.Services.getD []

def ListServicesReply.GetCount (r : ListServicesReply) : Int := r.Count.getD 0

structure CreateServiceReply where
  Service : Option Service := none
  deriving DecidableEq, Repr

structure GetServiceReply where
  Service : Option Service := none
  deriving DecidableEq, Repr

structure UpdateServiceReply where
  Service : Option Service := none
  deriving DecidableEq, Repr

/-- The part of `*http.Response` that the code reads. -/
structure HttpResponse where
  StatusCode : Int
  deriving DecidableEq, Repr

/-- The triple `(res, resp, err)` returned by `Execute()`; `err` is the Go error
(`none` is nil), `resp` may be nil as well. -/
structure ApiResult (α : Type) where
  res : Option α := none
  resp : Option HttpResponse := none
  err : Option String := none
  deriving DecidableEq, Repr

/-- The remote API as seen through `*koyeb.APIClient` and the id mapper: every
call maps the remote state to a result and a new remote state. -/
structure Client (σ : Type) where
  CreateApp : CreateApp → σ → ApiResult CreateAppReply × σ
  GetApp : String → σ → ApiResult GetAppReply × σ
  DeleteApp : String → σ → ApiResult Unit × σ
  ListServices : String → String → σ → ApiResult ListServicesReply × σ
  CreateService : CreateService → σ → ApiResult CreateServiceReply × σ
  GetService : String → σ → ApiResult GetServiceReply × σ
  UpdateService : String → UpdateService → σ → ApiResult UpdateServiceReply × σ
  DeleteService : String → σ → ApiResult Unit × σ
  ResolveID : String → σ → (String × Option String) × σ

/-- What an operation did, in order: each remote call with its arguments and
its result, and each `time.Sleep`. -/
inductive Event where
  | createApp (body : CreateApp) (r : ApiResult CreateAppReply)
  | getApp (id : String) (r : ApiResult GetAppReply)
  | deleteApp (id : String) (r : ApiResult Unit)
  | listServices (appId : String) (limit : String) (r : ApiResult ListServicesReply)
  | createService (body : CreateService) (r : ApiResult CreateServiceReply)
  | getService (id : String) (r : ApiResult GetServiceReply)
  | updateService (id : String) (body : UpdateService) (r : ApiResult UpdateServiceReply)
  | deleteService (id : String) (r : ApiResult Unit)
  | resolveID (name : String) (id : String) (err : Option String)
  | sleep (seconds : Nat)
  deriving DecidableEq, Repr

/-! ## Diagnostics and resource data -/

inductive Severity where
  | Error
  | Warning
  deriving DecidableEq, Repr

/-- A `diag.Diagnostic`.  `Summary` holds the format string of the call that
built it; the arguments are not rendered. -/
structure Diagnostic where
  Severity : Severity
  Summary : String
  deriving DecidableEq, Repr

/-- The type `diag.Diagnostics`; the empty list is nil, "no error". -/
abbrev Diagnostics := List Diagnostic

/-- The call `diag.Errorf(format, ...)`: one diagnostic of severity Error. -/
def Errorf (format : String) : Diagnostics :=
  [{ Severity := Severity.Error, Summary := format }]

/-- The `*schema.ResourceData` of one resource: its id and its attributes. -/
structure ResourceData where
  id : String := ""
  attrs : GoMap := []

/-- The method `d.Id()`. -/
def ResourceData.Id (d : ResourceData) : String := d.id

/-- The method `d.SetId(v)`. -/
def ResourceData.SetId (d : ResourceData) (v : String) : ResourceData := { d with id := v }

/-- The method `d.Get(key)`.  An attribute that was never set reads as the nil
interface here, where the SDK returns the zero value of the attribute's type;
the statements below fix by hypothesis every attribute they read. -/
def ResourceData.Get (d : ResourceData) (key : String) : Val := d.attrs.get key

/-- The method `d.Set(key, value)`; the error it returns is ignored at every
call site. -/
def ResourceData.Set (d : ResourceData) (key : String) (value : Val) : ResourceData :=
  { d with attrs := d.attrs.put key value }

/-- How a lifecycle function ended: it returned diagnostics, it panicked, or
(for the unbounded loop of the app deletion) it is still looping when the fuel
given to the model runs out. -/
inductive Exit where
  | returned (diags : Diagnostics)
  | panicked
  | looping
  deriving DecidableEq, Repr

/-- Result of a lifecycle function: how it ended, the resource data and the
remote state it left, and the events it emitted. -/
structure Outcome (σ : Type) where
  exit : Exit
  d : ResourceData
  remote : σ
  trace : List Event

/-! ## App resource (`resource_koyeb_app.go`) -/

/-- Function `setAppAttribute`.  `flattenDomains` is declared in a file of the
repository that is not among the sources and is taken as a parameter. -/
def setAppAttribute (flattenDomains : Option (List Domain) → String → Val)
    (d : ResourceData) (app : App) : ResourceData :=
  let d := d.SetId app.GetId
  let d := d.Set "name" (Val.str app.GetName)
  let d := d.Set "organization_id" (Val.str app.GetOrganizationId)
  let d := d.Set "created_at" (Val.str app.GetCreatedAt.UTCString)
  let d := d.Set "updated_at" (Val.str app.GetUpdatedAt.UTCString)
  let d := d.Set "domains" (flattenDomains app.Domains app.GetName)
  d

/-- Function `resourceKoyebAppRead`.  In the error branch `resp.StatusCode` is
read before anything else, so a nil `resp` panics. -/
def resourceKoyebAppRead {σ : Type} (flattenDomains : Option (List Domain) → String → Val)
    (client : Client σ) (d : ResourceData) (s : σ) : Outcome σ :=
  let call := client.GetApp d.Id s
  let r := call.1
  let tr := [Event.getApp d.Id r]
  if r.err.isSome then
    match r.resp with
    | none => { exit := Exit.panicked, d := d, remote := call.2, trace := tr }
    | some resp =>
      if resp.StatusCode = 404 then
        { exit := Exit.returned [], d := d.SetId "", remote := call.2, trace := tr }
      else
        { exit := Exit.returned (Errorf "Error retrieving app: (%s) %s (%v %v)"),
          d := d, remote := call.2, trace := tr }
  else
    match r.res.bind (fun res => res.App) with
    | none => { exit := Exit.panicked, d := d, remote := call.2, trace := tr }
    | some app =>
      { exit := Exit.returned [], d := setAppAttribute flattenDomains d app,
        remote := call.2, trace := tr }

/-- Function `resourceKoyebAppCreate`.  The log line dereferences
`res.App.Name`. -/
def resourceKoyebAppCreate {σ : Type} (flattenDomains : Option (List Domain) → String → Val)
    (client : Client σ) (d : ResourceData) (s : σ) : Outcome σ :=
  match (d.Get "name").asString with
  | none => { exit := Exit.panicked, d := d, remote := s, trace := [] }
  | some name =>
    let body : CreateApp := { Name := Ptr name }
    let call := client.CreateApp body s
    let r := call.1
    let tr := [Event.createApp body r]
    if r.err.isSome then
      { exit := Exit.returned (Errorf "Error creating app: %s (%v %v)"),
        d := d, remote := call.2, trace := tr }
    else
      match r.res.bind (fun res => res.App) with
      | none => { exit := Exit.panicked, d := d, remote := call.2, trace := tr }
      | some app =>
        match app.Name with
        | none => { exit := Exit.panicked, d := d, remote := call.2, trace := tr }
        | some _ =>
          let out := resourceKoyebAppRead flattenDomains client
            (setAppAttribute flattenDomains d app) call.2
          { out with trace := tr ++ out.trace }

/-- The call `res.GetCount()` on the pointer `res`; the getter is nil-safe. -/
def getCount (res : Option ListServicesReply) : Int :=
  (res.map ListServicesReply.GetCount).getD 0

/-- The call `res.GetServices()` on the pointer `res`; the getter is nil-safe. -/
def getServices (res : Option ListServicesReply) : List ServiceListItem :=
  (res.map ListServicesReply.GetServices).getD []

/-- Whether the inner loop of `resourceKoyebAppDelete` skips a listed service:
its status is DELETING or DELETED. -/
def skipped (svc : ServiceListItem) : Bool :=
  svc.GetStatus == SERVICESTATUS_DELETING || svc.GetStatus == SERVICESTATUS_DELETED

/-- The `for _, svc := range res.GetServices()` loop of
`resourceKoyebAppDelete`: `some diags` when a delete call failed and the
function returns `diags`, `none` when the loop ran to its end; then the remote
state and the `deleteService` events. -/
def deleteListedServices {σ : Type} (client : Client σ) :
    List ServiceListItem → σ → Option Diagnostics × σ × List Event
  | [], s => (none, s, [])
  | svc :: rest, s =>
    if skipped svc then deleteListedServices client rest s
    else
      let call := client.DeleteService svc.GetId s
      let ev := Event.deleteService svc.GetId call.1
      if call.1.err.isSome then
        (some (Errorf "Error deleting service: %s (%v %v"), call.2, [ev])
      else
        let next := deleteListedServices client rest call.2
        (next.1, next.2.1, ev :: next.2.2)

/-- Function `resourceKoyebAppDelete`.  The source loop `for { ... }` has no
bound; `fuel` bounds the number of iterations the model follows, and the exit
is `looping` when it is used up. -/
def resourceKoyebAppDelete {σ : Type} (client : Client σ) (d : ResourceData) :
    Nat → σ → Outcome σ
  | 0, s => { exit := Exit.looping, d := d, remote := s, trace := [] }
  | fuel + 1, s =>
    let call := client.ListServices d.Id "100" s
    let r := call.1
    let ev := Event.listServices d.Id "100" r
    if r.err.isSome then
      { exit := Exit.returned (Errorf "Error retrieving service: %s (%v %v)"),
        d := d, remote := call.2, trace := [ev] }
    else if getCount r.res = 0 then
      let del := client.DeleteApp d.Id call.2
      let ev2 := Event.deleteApp d.Id del.1
      if del.1.err.isSome then
        { exit := Exit.returned (Errorf "Error deleting app: %s (%v %v)"),
          d := d, remote := del.2, trace := [ev, ev2] }
      else
        { exit := Exit.returned [], d := d.SetId "", remote := del.2, trace := [ev, ev2] }
    else
      let loop := deleteListedServices client (getServices r.res) call.2
      match loop.1 with
      | some diags =>
        { exit := Exit.returned diags, d := d, remote := loop.2.1, trace := ev :: loop.2.2 }
      | none =>
        let out := resourceKoyebAppDelete client d fuel loop.2.1
        { out with trace := ev :: loop.2.2 ++ Event.sleep 2 :: out.trace }

/-! ## Service resource (`resource_koyeb_service.go`) -/

def Service.GetId (v : Service) : String := getString v.Id

def Service.GetName (v : Service) : String := getString v.Name

def Service.GetAppId (v : Service) : String := getString v.AppId

def Service.GetVersion (v : Service) : String := getString v.Version

def Service.GetStatus (v : Service) : ServiceStatus := getString v.Status

def Service.GetMessages (v : Service) : List String := v.Messages.getD []

def Service.GetOrganizationId (v : Service) : String := getString v.OrganizationId

def Service.GetLatestDeploymentId (v : Service) : String := getString v.LatestDeploymentId

def Service.GetActiveDeploymentId (v : Service) : String := getString v.ActiveDeploymentId

/-- Function `flattenService`: the map `r` is filled but never appended to
`result`. -/
def flattenService (service : Service) : List Val :=
  let result : List Val := []
  let r : GoMap := []
  let r := r.put "id" (Val.str service.GetId)
  let r := r.put "name" (Val.str service.GetName)
  let r := r.put "paused_at" (Val.str (getTime service.CreatedAt).UTCString)
  let r := r.put "resumed_at" (Val.str (getTime service.CreatedAt).UTCString)
  let r := r.put "terminated_at" (Val.str (getTime service.CreatedAt).UTCString)
  let r := r.put "created_at" (Val.str (getTime service.CreatedAt).UTCString)
  let _r := r.put "updated_at" (Val.str (getTime service.UpdatedAt).UTCString)
  result

/-- Function `setServiceAttribute`.  The getters are nil-safe, so a nil
`service` is read as an all-unset struct by the caller. -/
def setServiceAttribute (d : ResourceData) (service : Service) : ResourceData :=
  let d := d.SetId service.GetId
  let d := d.Set "id" (Val.str service.GetId)
  let d := d.Set "name" (Val.str service.GetName)
  let d := d.Set "app_id" (Val.str service.GetAppId)
  let d := d.Set "version" (Val.str service.GetVersion)
  let d := d.Set "status" (Val.str service.GetStatus)
  let d := d.Set "messages" (Val.str (String.intercalate " " service.GetMessages))
  let d := d.Set "paused_at" (Val.str (getTime service.PausedAt).UTCString)
  let d := d.Set "resumed_at" (Val.str (getTime service.ResumedAt).UTCString)
  let d := d.Set "terminated_at" (Val.str (getTime service.TerminatedAt).UTCString)
  let d := d.Set "created_at" (Val.str (getTime service.CreatedAt).UTCString)
  let d := d.Set "updated_at" (Val.str (getTime service.UpdatedAt).UTCString)
  let d := d.Set "latest_deployment" (Val.str service.GetLatestDeploymentId)
  let d := d.Set "active_deployment" (Val.str service.GetActiveDeploymentId)
  let d := d.Set "organization_id" (Val.str service.GetOrganizationId)
  d

/-- Function `resourceKoyebServiceRead`.  As in the app read, the error branch
reads `resp.StatusCode` first.  On success `res.Service` is read through `res`
(a nil `res` panics) and handed to the nil-safe getters. -/
def resourceKoyebServiceRead {σ : Type} (client : Client σ) (d : ResourceData) (s : σ) :
    Outcome σ :=
  let call := client.GetService d.Id s
  let r := call.1
  let tr := [Event.getService d.Id r]
  if r.err.isSome then
    match r.resp with
    | none => { exit := Exit.panicked, d := d, remote := call.2, trace := tr }
    | some resp =>
      if resp.StatusCode = 404 then
        { exit := Exit.returned [], d := d.SetId "", remote := call.2, trace := tr }
      else
        { exit := Exit.returned (Errorf "Error retrieving service: %s (%v %v)"),
          d := d, remote := call.2, trace := tr }
  else
    match r.res with
    | none => { exit := Exit.panicked, d := d, remote := call.2, trace := tr }
    | some res =>
      { exit := Exit.returned [], d := setServiceAttribute d (res.Service.getD {}),
        remote := call.2, trace := tr }

/-- The expression
`expandDeploymentDefinition(d.Get("definition").(*schema.Set).List()[0].(map[string]interface{}))`
shared by service create and update. -/
def expandConfiguredDefinition (d : ResourceData) : Option DeploymentDefinition :=
  (d.Get "definition").asSetList.bind fun l =>
  l.head?.bind fun first =>
  first.asMap.bind expandDeploymentDefinition

/-- The name resolution that opens `resourceKoyebServiceCreate`: the app id to
send (`none` when the function returns the diagnostics of a failed resolution
instead), the remote state and the events. -/
def resolveAppId {σ : Type} (client : Client σ) (appName : String) (s : σ) :
    Except Diagnostics String × σ × List Event :=
  if appName != "" then
    let call := client.ResolveID appName s
    let ev := Event.resolveID appName call.1.1 call.1.2
    if call.1.2.isSome then
      (Except.error (Errorf "Error creating service: %s"), call.2, [ev])
    else (Except.ok call.1.1, call.2, [ev])
  else (Except.ok "", s, [])

/-- The part of `resourceKoyebServiceCreate` from the `CreateService` call on. -/
def createServiceCall {σ : Type} (client : Client σ) (d : ResourceData) (appId : String)
    (definition : DeploymentDefinition) (s : σ) : Outcome σ :=
  let body : CreateService := { AppId := some appId, Definition := some definition }
  let call := client.CreateService body s
  let r := call.1
  let tr := [Event.createService body r]
  if r.err.isSome then
    { exit := Exit.returned (Errorf "Error creating service: %s (%v %v)"),
      d := d, remote := call.2, trace := tr }
  else
    match (r.res.bind (fun res => res.Service)).bind (fun v => v.Id) with
    | none => { exit := Exit.panicked, d := d, remote := call.2, trace := tr }
    | some id =>
      match (r.res.bind (fun res => res.Service)).bind (fun v => v.Name) with
      | none => { exit := Exit.panicked, d := d.SetId id, remote := call.2, trace := tr }
      | some _ =>
        let out := resourceKoyebServiceRead client (d.SetId id) call.2
        { out with trace := tr ++ out.trace }

/-- Function `resourceKoyebServiceCreate`: name resolution, encoding of the
definition, the create call, then the read. -/
def resourceKoyebServiceCreate {σ : Type} (client : Client σ) (d : ResourceData) (s : σ) :
    Outcome σ :=
  match (d.Get "app_name").asString with
  | none => { exit := Exit.panicked, d := d, remote := s, trace := [] }
  | some appName =>
    let res := resolveAppId client appName s
    match res.1 with
    | Except.error diags => { exit := Exit.returned diags, d := d, remote := res.2.1, trace := res.2.2 }
    | Except.ok appId =>
      match expandConfiguredDefinition d with
      | none => { exit := Exit.panicked, d := d, remote := res.2.1, trace := res.2.2 }
      | some definition =>
        let out := createServiceCall client d appId definition res.2.1
        { out with trace := res.2.2 ++ out.trace }

/-- Function `resourceKoyebServiceUpdate`.  The log line dereferences
`res.Service.Name`. -/
def resourceKoyebServiceUpdate {σ : Type} (client : Client σ) (d : ResourceData) (s : σ) :
    Outcome σ :=
  match expandConfiguredDefinition d with
  | none => { exit := Exit.panicked, d := d, remote := s, trace := [] }
  | some definition =>
    let body : UpdateService := { Definition := some definition }
    let call := client.UpdateService d.Id body s
    let r := call.1
    let tr := [Event.updateService d.Id body r]
    if r.err.isSome then
      { exit := Exit.returned (Errorf "Error updating service: %s (%v %v)"),
        d := d, remote := call.2, trace := tr }
    else
      match (r.res.bind (fun res => res.Service)).bind (fun v => v.Name) with
      | none => { exit := Exit.panicked, d := d, remote := call.2, trace := tr }
      | some _ =>
        let out := resourceKoyebServiceRead client d call.2
        { out with trace := tr ++ out.trace }

/-- Function `resourceKoyebServiceDelete`. -/
def resourceKoyebServiceDelete {σ : Type} (client : Client σ) (d : ResourceData) (s : σ) :
    Outcome σ :=
  let call := client.DeleteService d.Id s
  let r := call.1
  let tr := [Event.deleteService d.Id r]
  if r.err.isSome then
    { exit := Exit.returned (Errorf "Error deleting service: %s (%v %v)"),
      d := d, remote := call.2, trace := tr }
  else
    { exit := Exit.returned [], d := d.SetId "", remote := call.2, trace := tr }

/-! ## Well-formed configuration values -/

/-- Whether a value is a Go `string`. -/
def Val.isStr : Val → Bool
  | Val.str _ => true
  | _ => false

/-- Whether a value is a Go `string` or the nil interface. -/
def Val.isStrOrNil : Val → Bool
  | Val.str _ => true
  | Val.nil => true
  | _ => false

/-- An entry of the `env` set as `envSchema` types it: a map whose `key` is a
string and whose `value` and `secret` are strings when present. -/
def isEnvEntry : Val → Bool
  | Val.map m => (GoMap.get m "key").isStr && (GoMap.get m "value").isStrOrNil && (GoMap.get m "secret").isStrOrNil
  | _ => false

/-- Whether a configuration value sets a non-empty string. -/
def Val.setsString (v : Val) (s : String) : Prop := v = Val.str s ∧ s ≠ ""

/-- Relation between an `env` configuration entry and the map decoded for it:
the key is carried over; a non-empty value (secret) comes back as a reference to
the same string; the decoded map has a `value` (`secret`) key only when the
entry sets a non-empty one. -/
def EnvRestored (c : Val) (o : GoMap) : Prop :=
  ∃ m, c = Val.map m ∧
    o.get "key" = GoMap.get m "key" ∧
    (∀ v, (GoMap.get m "value").setsString v → o.get "value" = Val.pstr (some v)) ∧
    (∀ s, (GoMap.get m "secret").setsString s → o.get "secret" = Val.pstr (some s)) ∧
    (o.has "value" = true → ∃ v, (GoMap.get m "value").setsString v) ∧
    (o.has "secret" = true → ∃ s, (GoMap.get m "secret").setsString s)


/-- Whether a value is a Go `int`. -/
def Val.isInt : Val → Bool
  | Val.int _ => true
  | _ => false

/-- Whether a value is a Go `bool`. -/
def Val.isBool : Val → Bool
  | Val.bool _ => true
  | _ => false

/-- Whether a value is a `[]interface{}` of strings. -/
def Val.isStrList : Val → Bool
  | Val.list xs => xs.all Val.isStr
  | _ => false

/-- Whether a value is a `*schema.Set` whose elements all satisfy `p`. -/
def Val.isSetOf (p : Val → Bool) : Val → Bool
  | Val.set xs => xs.all p
  | _ => false

/-- An entry of the `ports` set as `portSchema` types it. -/
def isPortEntry : Val → Bool
  | Val.map m => (GoMap.get m "port").isInt && (GoMap.get m "protocol").isStr
  | _ => false

/-- An entry of the `routes` set as `routeSchema` types it. -/
def isRouteEntry : Val → Bool
  | Val.map m => (GoMap.get m "port").isInt && (GoMap.get m "path").isStr
  | _ => false

/-- An entry of the `instance_types` set as `instanceTypeSchema` types it. -/
def isInstanceTypeEntry : Val → Bool
  | Val.map m => (GoMap.get m "type").isStr
  | _ => false

/-- An entry of the `scalings` set as `scalingSchema` types it. -/
def isScalingEntry : Val → Bool
  | Val.map m => (GoMap.get m "max").isInt && (GoMap.get m "min").isInt
  | _ => false

/-- An entry of the `docker` set as `dockerSchema` types it. -/
def isDockerEntry : Val → Bool
  | Val.map m => (GoMap.get m "image").isStr && (GoMap.get m "command").isStrOrNil &&
      (GoMap.get m "args").isStrList && (GoMap.get m "image_registry_secret").isStrOrNil
  | _ => false

/-- An entry of the `git` set as `gitSchema` types it. -/
def isGitEntry : Val → Bool
  | Val.map m => (GoMap.get m "repository").isStr && (GoMap.get m "branch").isStr &&
      (GoMap.get m "build_command").isStr && (GoMap.get m "run_command").isStr &&
      (GoMap.get m "no_deploy_on_push").isBool
  | _ => false

/-- A definition configuration as `deploymentDefinitionSchena` types it: every
key holds a value of the declared type.  Nothing relates the `docker` and `git`
sets to each other: the schema declares both as optional sets of at most one
block, with no conflict between them. -/
def isDefinitionConfig (cfg : GoMap) : Bool :=
  (cfg.get "name").isStr &&
  (cfg.get "docker").isSetOf isDockerEntry &&
  (cfg.get "git").isSetOf isGitEntry &&
  (cfg.get "env").isSetOf isEnvEntry &&
  (cfg.get "ports").isSetOf isPortEntry &&
  (cfg.get "routes").isSetOf isRouteEntry &&
  (cfg.get "instance_types").isSetOf isInstanceTypeEntry &&
  (cfg.get "scalings").isSetOf isScalingEntry &&
  (cfg.get "regions").isSetOf Val.isStr

/-- The `git` blocks of a definition configuration. -/
def gitBlocks (cfg : GoMap) : List Val := ((cfg.get "git").asSetList).getD []

/-- The `docker` blocks of a definition configuration. -/
def dockerBlocks (cfg : GoMap) : List Val := ((cfg.get "docker").asSetList).getD []

/-! ## Example inputs -/

/-- Two `env` entries: a plain value with an empty secret, and a secret alone. -/
def exampleEnvConfig : List Val :=
  [Val.map [("key", Val.str "PORT"), ("value", Val.str "8080"), ("secret", Val.str "")],
   Val.map [("key", Val.str "TOKEN"), ("secret", Val.str "api-token")]]

/-- A definition configuration with a docker block and no git block, as the
configuration layer hands it over (every key of the schema present, unset
optional strings empty). -/
def exampleDockerConfig : GoMap :=
  [("name", Val.str "web"),
   ("docker", Val.set [Val.map [("image", Val.str "nginx"), ("command", Val.str ""),
      ("args", Val.list []), ("image_registry_secret", Val.str "")]]),
   ("git", Val.set []),
   ("env", Val.set [Val.map [("key", Val.str "PORT"), ("value", Val.str "8080"),
      ("secret", Val.str "")]]),
   ("ports", Val.set [Val.map [("port", Val.int 8080), ("protocol", Val.str "http")]]),
   ("routes", Val.set [Val.map [("port", Val.int 8080), ("path", Val.str "/")]]),
   ("instance_types", Val.set [Val.map [("type", Val.str "nano")]]),
   ("scalings", Val.set [Val.map [("min", Val.int 1), ("max", Val.int 1)]]),
   ("regions", Val.set [Val.str "fra"])]

/-- The definition that `expandDeploymentDefinition` builds for
`exampleDockerConfig`. -/
def exampleDockerDefinition : DeploymentDefinition :=
  { Name := some "web",
    Routes := some [{ Port := some 8080, Path := some "/" }],
    Ports := some [{ Port := some 8080, Protocol := some "http" }],
    Env := some [{ Key := some "PORT", Value := some "8080" }],
    Regions := some ["fra"],
    Scalings := some [{ Min := some 1, Max := some 1 }],
    InstanceTypes := some [{ Type_ := some "nano" }],
    Docker := some { Image := some "nginx", Command := some "", Args := some [],
                     ImageRegistrySecret := some "" },
    Git := none }

/-- A definition configuration in which both the docker block and the git
block are populated. -/
def exampleBothConfig : GoMap :=
  [("name", Val.str "web"),
   ("docker", Val.set [Val.map [("image", Val.str "nginx"), ("command", Val.str ""),
      ("args", Val.list []), ("image_registry_secret", Val.str "")]]),
   ("git", Val.set [Val.map [("repository", Val.str "github.com/koyeb/example"),
      ("branch", Val.str "main"), ("build_command", Val.str ""), ("run_command", Val.str ""),
      ("no_deploy_on_push", Val.bool false)]]),
   ("env", Val.set []),
   ("ports", Val.set [Val.map [("port", Val.int 8080), ("protocol", Val.str "http")]]),
   ("routes", Val.set [Val.map [("port", Val.int 8080), ("path", Val.str "/")]]),
   ("instance_types", Val.set [Val.map [("type", Val.str "nano")]]),
   ("scalings", Val.set [Val.map [("min", Val.int 1), ("max", Val.int 1)]]),
   ("regions", Val.set [Val.str "fra"])]

/-- The definition that `expandDeploymentDefinition` builds for
`exampleBothConfig`. -/
def exampleBothDefinition : DeploymentDefinition :=
  { Name := some "web",
    Routes := some [{ Port := some 8080, Path := some "/" }],
    Ports := some [{ Port := some 8080, Protocol := some "http" }],
    Env := some [],
    Regions := some ["fra"],
    Scalings := some [{ Min := some 1, Max := some 1 }],
    InstanceTypes := some [{ Type_ := some "nano" }],
    Docker := some { Image := some "nginx", Command := some "", Args := some [],
                     ImageRegistrySecret := some "" },
    Git := some { Repository := some "github.com/koyeb/example", Branch := some "main",
                  BuildCommand := some "", RunCommand := some "",
                  NoDeployOnPush := some false } }

/-- Resource data of a service of app "demo-app" configured with
`exampleBothConfig`. -/
def exampleServiceData : ResourceData :=
  { id := "svc-1",
    attrs := [("app_name", Val.str "demo-app"),
              ("definition", Val.set [Val.map exampleBothConfig])] }

/-- Resource data of the app "demo-app" with id "demo-app-id". -/
def exampleAppData : ResourceData :=
  { id := "demo-app-id", attrs := [("name", Val.str "demo-app")] }

/-- A successful call result: a value, a 200 response, no error. -/
def okResult {α : Type} (v : α) : ApiResult α :=
  { res := some v, resp := some { StatusCode := 200 }, err := none }

/-- A failed call result carrying an HTTP response with the given status. -/
def statusFailure {α : Type} (status : Int) : ApiResult α :=
  { res := none, resp := some { StatusCode := status }, err := some "unexpected status" }

/-- A failed call result of a transport failure: an error and no response. -/
def transportFailure {α : Type} : ApiResult α :=
  { res := none, resp := none, err := some "dial tcp: connection refused" }

/-- The `domains` attribute left undecoded: stands for the absent
`flattenDomains` in the examples. -/
def exampleFlattenDomains (_domains : Option (List Domain)) (_appName : String) : Val :=
  Val.list []

/-- A small remote whose state is the list of services of one app.  Every call
succeeds.  A delete turns the service to DELETING; after each listing the
services that were DELETING or DELETED are gone. -/
def exampleClient : Client (List ServiceListItem) :=
  { CreateApp := fun body s =>
      (okResult { App := some { Id := some "demo-app-id", Name := body.Name } }, s),
    GetApp := fun id s => (okResult { App := some { Id := some id, Name := some "demo-app" } }, s),
    DeleteApp := fun _ s => (okResult (), s),
    ListServices := fun _ _ s =>
      (okResult { Services := some s, Count := some (s.length : Int) },
       s.filter (fun i => !skipped i)),
    CreateService := fun body s =>
      (okResult { Service := some { Id := some "svc-1", Name := some "web", AppId := body.AppId } },
       s),
    GetService := fun id s =>
      (okResult { Service := some { Id := some id, Name := some "web" } }, s),
    UpdateService := fun id _ s =>
      (okResult { Service := some { Id := some id, Name := some "web" } }, s),
    DeleteService := fun id s =>
      (okResult (),
       s.map (fun i => if i.GetId == id then { i with Status := some SERVICESTATUS_DELETING }
                       else i)),
    ResolveID := fun name s => (("id-of-" ++ name, none), s) }

/-- The remote of `exampleClient` on which the resources are already gone: get
and delete answer 404. -/
def goneClient : Client (List ServiceListItem) :=
  { exampleClient with
    GetApp := fun _ s => (statusFailure 404, s),
    GetService := fun _ s => (statusFailure 404, s),
    DeleteApp := fun _ s => (statusFailure 404, s),
    DeleteService := fun _ s => (statusFailure 404, s) }

/-- The remote of `exampleClient` when it cannot be reached: get calls fail
without an HTTP response. -/
def unreachableClient : Client (List ServiceListItem) :=
  { exampleClient with
    GetApp := fun _ s => (transportFailure, s),
    GetService := fun _ s => (transportFailure, s) }

/-- Three services of one app, all active. -/
def exampleServices : List ServiceListItem :=
  [{ Id := some "svc-a", Status := some "HEALTHY" },
   { Id := some "svc-b", Status := some "HEALTHY" },
   { Id := some "svc-c", Status := some "STARTING" }]

/-! ## Event classes used to state the deletion protocol -/

/-- Whether an event is a `ListServices` call. -/
def Event.isListServices : Event → Bool
  | Event.listServices _ _ _ => true
  | _ => false

/-- Whether an event is a `DeleteService` call. -/
def Event.isDeleteService : Event → Bool
  | Event.deleteService _ _ => true
  | _ => false

/-- Whether an event is a `DeleteApp` call. -/
def Event.isDeleteApp : Event → Bool
  | Event.deleteApp _ _ => true
  | _ => false

/-- A step of the deletion loop that went through: a `ListServices` or
`DeleteService` call without error, or the sleep between two polls. -/
def Event.loopOk : Event → Bool
  | Event.listServices _ _ r => r.err.isNone
  | Event.deleteService _ r => r.err.isNone
  | Event.sleep _ => true
  | _ => false

/-- A failed call inside the deletion loop: a `ListServices` or `DeleteService`
call that returned an error. -/
def Event.loopFailed : Event → Bool
  | Event.listServices _ _ r => r.err.isSome
  | Event.deleteService _ r => r.err.isSome
  | _ => false

/-- The services of a page that the loop does not skip. -/
def activeServices (services : List ServiceListItem) : List ServiceListItem :=
  services.filter (fun i => !skipped i)

/-- The three ways a run of `resourceKoyebAppDelete` can look.  Still looping
when the fuel ran out: only successful loop steps so far, resource data
untouched.  Aborted: successful loop steps, then one failed `ListServices` or
`DeleteService` call, a non-nil error, resource data untouched.  Drained:
successful loop steps, then a successful listing with count zero followed by
the `DeleteApp` call, whose result decides between clearing the id and
returning an error. -/
def DeleteRun {σ : Type} (d : ResourceData) (out : Outcome σ) : Prop :=
  (out.exit = Exit.looping ∧ out.d = d ∧ ∀ e ∈ out.trace, e.loopOk = true) ∨
  (∃ pre e diags, out.trace = pre ++ [e] ∧ (∀ x ∈ pre, x.loopOk = true) ∧
    e.loopFailed = true ∧ out.exit = Exit.returned diags ∧ diags ≠ [] ∧ out.d = d) ∨
  (∃ pre rl ra,
    out.trace = pre ++ [Event.listServices d.Id "100" rl, Event.deleteApp d.Id ra] ∧
    (∀ x ∈ pre, x.loopOk = true) ∧ rl.err = none ∧ getCount rl.res = 0 ∧
    ((ra.err = none ∧ out.exit = Exit.returned [] ∧ out.d = d.SetId "") ∨
     (ra.err.isSome = true ∧ ∃ diags, out.exit = Exit.returned diags ∧ diags ≠ [] ∧
       out.d = d)))

/-- The remote of `exampleClient` on which deleting the service "svc-b" fails
with status 500. -/
def failingClient : Client (List ServiceListItem) :=
  { exampleClient with
    DeleteService := fun id s =>
      if id == "svc-b" then (statusFailure 500, s) else exampleClient.DeleteService id s }

/-- The service id of a `DeleteService` call, nothing for any other event. -/
def Event.deletedService : Event → Option String
  | Event.deleteService id _ => some id
  | _ => none

/-- A remote with a call counter as its state: every call succeeds and leaves
the counter, and a listing is empty. -/
def quietClient : Client Nat :=
  { CreateApp := fun body n =>
      (okResult { App := some { Id := some "demo-app-id", Name := body.Name } }, n),
    GetApp := fun id n => (okResult { App := some { Id := some id } }, n),
    DeleteApp := fun _ n => (okResult (), n),
    ListServices := fun _ _ n => (okResult {}, n),
    CreateService := fun _ n => (okResult { Service := some { Id := some "svc-1" } }, n),
    GetService := fun id n => (okResult { Service := some { Id := some id } }, n),
    UpdateService := fun id _ n => (okResult { Service := some { Id := some id } }, n),
    DeleteService := fun _ n => (okResult (), n),
    ResolveID := fun name n => (("id-of-" ++ name, none), n) }

/-- A remote that answers the n-th listing (counted from zero by its state) with
the n-th page of a script, and with an empty page of count zero once the script
is used up; every call succeeds. -/
def scriptedClient (pages : List (List ServiceListItem)) : Client Nat :=
  { quietClient with
    ListServices := fun _ _ n =>
      (okResult { Services := some (pages.getD n []),
                  Count := some ((pages.getD n []).length : Int) }, n + 1) }

/-- The script of the scenario: three active services, then the same three
being deleted, then nothing. -/
def examplePages : List (List ServiceListItem) :=
  [[{ Id := some "svc-a", Status := some "HEALTHY" },
    { Id := some "svc-b", Status := some "HEALTHY" },
    { Id := some "svc-c", Status := some "STARTING" }],
   [{ Id := some "svc-a", Status := some "DELETING" },
    { Id := some "svc-b", Status := some "DELETING" },
    { Id := some "svc-c", Status := some "DELETED" }]]

/-- The script of a remote that is slow to react: the one service of the app is
still listed as HEALTHY in the second listing and is gone in the third. -/
def exampleSlowPages : List (List ServiceListItem) :=
  [[{ Id := some "svc-a", Status := some "HEALTHY" }],
   [{ Id := some "svc-a", Status := some "HEALTHY" }]]

/-! ## Inputs of the update and encoding scenarios -/

/-- The configuration `exampleDockerConfig` after a change of its routes alone:
the route of port 8080 now has the path "/api". -/
def exampleRoutesChangedConfig : GoMap :=
  [("name", Val.str "web"),
   ("docker", Val.set [Val.map [("image", Val.str "nginx"), ("command", Val.str ""),
      ("args", Val.list []), ("image_registry_secret", Val.str "")]]),
   ("git", Val.set []),
   ("env", Val.set [Val.map [("key", Val.str "PORT"), ("value", Val.str "8080"),
      ("secret", Val.str "")]]),
   ("ports", Val.set [Val.map [("port", Val.int 8080), ("protocol", Val.str "http")]]),
   ("routes", Val.set [Val.map [("port", Val.int 8080), ("path", Val.str "/api")]]),
   ("instance_types", Val.set [Val.map [("type", Val.str "nano")]]),
   ("scalings", Val.set [Val.map [("min", Val.int 1), ("max", Val.int 1)]]),
   ("regions", Val.set [Val.str "fra"])]

/-- Resource data of the service "svc-1" configured with
`exampleRoutesChangedConfig`. -/
def exampleUpdatedServiceData : ResourceData :=
  { id := "svc-1",
    attrs := [("app_name", Val.str "demo-app"),
              ("definition", Val.set [Val.map exampleRoutesChangedConfig])] }

/-- A git block in which only the required `repository` and `branch` are
configured, as the configuration layer hands it over: the optional strings are
empty and the optional flag is false. -/
def exampleGitBlock : List Val :=
  [Val.map [("repository", Val.str "github.com/koyeb/example"), ("branch", Val.str "main"),
     ("build_command", Val.str ""), ("run_command", Val.str ""),
     ("no_deploy_on_push", Val.bool false)]]

/-- The block of `exampleGitBlock` as a map from which the keys of the optional
fields are missing. -/
def exampleBareGitBlock : List Val :=
  [Val.map [("repository", Val.str "github.com/koyeb/example"), ("branch", Val.str "main")]]

/-! ## Element schemas -/

/-- The value types of the plugin SDK that the element schemas declare. -/
inductive ValueType where
  | TypeBool
  | TypeInt
  | TypeString
  | TypeList
  deriving DecidableEq, Repr

/-- The attributes of a `schema.Schema` that decide which configured values
reach the resource functions: the declared type, `Required`, `Optional` and
the `ValidateFunc` (`none` where the source sets none).  No schema of the
source sets an attribute that relates one field to another. -/
structure Schema where
  Type_ : ValueType
  Required : Bool := false
  Optional : Bool := false
  ValidateFunc : Option (Val → Bool) := none

/-- The validator `validation.IntBetween(min, max)` of the plugin SDK: it
passes an int between `min` and `max`, both included. -/
def IntBetween (min max : Int) : Val → Bool
  | Val.int n => decide (min ≤ n) && decide (n ≤ max)
  | _ => false

/-- Whether a value has the Go type in which the configuration layer hands over
a field of the declared type. -/
def ValueType.holds : ValueType → Val → Bool
  | ValueType.TypeBool, Val.bool _ => true
  | ValueType.TypeInt, Val.int _ => true
  | ValueType.TypeString, Val.str _ => true
  | ValueType.TypeList, Val.list _ => true
  | _, _ => false

/-- Whether the plugin SDK lets a value through for a field: a missing value
only when the field is not required, any other value when it has the declared
type and passes the `ValidateFunc`. -/
def Schema.accepts (sc : Schema) (v : Val) : Bool :=
  match v with
  | Val.nil => !sc.Required
  | _ =>
    sc.Type_.holds v &&
      (match sc.ValidateFunc with
       | none => true
       | some validate => validate v)

/-- Whether the plugin SDK lets a block through for an element resource with
the given fields: the block is a map and every field accepts what the map
holds for it. -/
def accepts (fields : List (String × Schema)) : Val → Bool
  | Val.map m => fields.all fun f => f.2.accepts (GoMap.get m f.1)
  | _ => false

/-- The fields of `envSchema`. -/
def envSchema : List (String × Schema) :=
  [("key", { Type_ := ValueType.TypeString, Required := true }),
   ("value", { Type_ := ValueType.TypeString, Optional := true }),
   ("secret", { Type_ := ValueType.TypeString, Optional := true })]

/-- The fields of `routeSchema`: the port is validated, the path is not. -/
def routeSchema : List (String × Schema) :=
  [("port", { Type_ := ValueType.TypeInt, Required := true,
              ValidateFunc := some (IntBetween 1 65535) }),
   ("path", { Type_ := ValueType.TypeString, Required := true })]

/-- An `env` entry that supplies both a plaintext value and a secret. -/
def exampleBothEnv : Val :=
  Val.map [("key", Val.str "TOKEN"), ("value", Val.str "plain"), ("secret", Val.str "api-token")]

/-- Relation between an `env` configuration entry and the `DeploymentEnv`
encoded for it: the key is carried over, `Value` is set exactly when the entry
holds a non-empty value and `Secret` exactly when it holds a non-empty secret,
each to that string and neither depending on the other. -/
def EnvEncoded (c : Val) (e : DeploymentEnv) : Prop :=
  ∃ m key, c = Val.map m ∧ GoMap.get m "key" = Val.str key ∧ e.Key = some key ∧
    (∀ v, e.Value = some v ↔ (GoMap.get m "value").setsString v) ∧
    (∀ s, e.Secret = some s ↔ (GoMap.get m "secret").setsString s)

/-- Whether a path begins with "/", the form the description of the `path`
field asks for. -/
def startsWithSlash (path : String) : Bool :=
  path.data.head? == some '/'

/-- Two route entries for port 8080: one with the empty path, one whose path
does not begin with "/". -/
def exampleBadRoutes : List Val :=
  [Val.map [("port", Val.int 8080), ("path", Val.str "")],
   Val.map [("port", Val.int 8080), ("path", Val.str "api")]]

/-- The configuration `exampleDockerConfig` with the routes of
`exampleBadRoutes`. -/
def exampleBadRoutesConfig : GoMap :=
  [("name", Val.str "web"),
   ("docker", Val.set [Val.map [("image", Val.str "nginx"), ("command", Val.str ""),
      ("args", Val.list []), ("image_registry_secret", Val.str "")]]),
   ("git", Val.set []),
   ("env", Val.set [Val.map [("key", Val.str "PORT"), ("value", Val.str "8080"),
      ("secret", Val.str "")]]),
   ("ports", Val.set [Val.map [("port", Val.int 8080), ("protocol", Val.str "http")]]),
   ("routes", Val.set exampleBadRoutes),
   ("instance_types", Val.set [Val.map [("type", Val.str "nano")]]),
   ("scalings", Val.set [Val.map [("min", Val.int 1), ("max", Val.int 1)]]),
   ("regions", Val.set [Val.str "fra"])]

/-- Resource data of the service "svc-1" configured with
`exampleBadRoutesConfig`. -/
def exampleBadRoutesServiceData : ResourceData :=
  { id := "svc-1",
    attrs := [("app_name", Val.str "demo-app"),
              ("definition", Val.set [Val.map exampleBadRoutesConfig])] }

/-- Relation between a route entry and the `DeploymentRoute` encoded for it:
the port is an int between 1 and 65535, the path is a string, and both are
carried over as they are. -/
def RouteEncoded (c : Val) (r : DeploymentRoute) : Prop :=
  ∃ m n path, c = Val.map m ∧ GoMap.get m "port" = Val.int n ∧ 1 ≤ n ∧ n ≤ 65535 ∧
    GoMap.get m "path" = Val.str path ∧ r = { Port := some n, Path := some path }

/-- The routes of the definition carried by an `UpdateService` call, nothing
for any other event. -/
def Event.updatedRoutes : Event → Option (List DeploymentRoute)
  | Event.updateService _ body _ => body.Definition.bind fun dd => dd.Routes
  | _ => none

/-- Whether an event is a read of a resource (`GetApp` or `GetService`). -/
def Event.isRead : Event → Bool
  | Event.getApp _ _ => true
  | Event.getService _ _ => true
  | _ => false

/-- Resource data of a service that does not exist yet: no id, app "demo-app",
the definition `exampleDockerConfig`. -/
def exampleNewServiceData : ResourceData :=
  { id := "",
    attrs := [("app_name", Val.str "demo-app"),
              ("definition", Val.set [Val.map exampleDockerConfig])] }

/-- Resource data of an app that does not exist yet: no id, name "demo-app". -/
def exampleNewAppData : ResourceData :=
  { id := "", attrs := [("name", Val.str "demo-app")] }

/-- The remote of `exampleClient` on which no app name resolves. -/
def unknownAppClient : Client (List ServiceListItem) :=
  { exampleClient with
    ResolveID := fun _ s => (("", some "app not found"), s) }

/-- The remote of `exampleClient` on which the create calls fail with status
500. -/
def rejectingClient : Client (List ServiceListItem) :=
  { exampleClient with
    CreateApp := fun _ s => (statusFailure 500, s),
    CreateService := fun _ s => (statusFailure 500, s) }

/-- Two identical `env` entries followed by a third: a list with a duplicate. -/
def exampleDuplicateEnvs : List Val :=
  [Val.map [("key", Val.str "PORT"), ("value", Val.str "8080")],
   Val.map [("key", Val.str "PORT"), ("value", Val.str "8080")],
   Val.map [("key", Val.str "TOKEN"), ("secret", Val.str "api-token")]]

/-- Two identical `ports` entries. -/
def exampleDuplicatePorts : List Val :=
  [Val.map [("port", Val.int 8080), ("protocol", Val.str "http")],
   Val.map [("port", Val.int 8080), ("protocol", Val.str "http")]]

/-- Two identical `routes` entries around a different one. -/
def exampleDuplicateRoutes : List Val :=
  [Val.map [("port", Val.int 8080), ("path", Val.str "/")],
   Val.map [("port", Val.int 9090), ("path", Val.str "/metrics")],
   Val.map [("port", Val.int 8080), ("path", Val.str "/")]]

/-- Two identical `instance_types` entries. -/
def exampleDuplicateInstanceTypes : List Val :=
  [Val.map [("type", Val.str "nano")], Val.map [("type", Val.str "nano")]]

/-- A list of regions with a repeated one. -/
def exampleDuplicateRegions : List Val :=
  [Val.str "fra", Val.str "was", Val.str "fra"]

/-! # Theorems -/

/-! ## Lemmas on list traversal -/

theorem mapM_forall₂ {α β : Type} (f : α → Option β) (R : α → β → Prop) :
    ∀ l : List α, (∀ a ∈ l, ∃ b, f a = some b ∧ R a b) →
      ∃ l2, l.mapM f = some l2 ∧ List.Forall₂ R l l2 := by
  intro l
  induction l with
  | nil => intro _; exact ⟨[], rfl, List.Forall₂.nil⟩
  | cons a l ih =>
    intro h
    obtain ⟨b, hb, hR⟩ := h a (List.mem_cons_self a l)
    obtain ⟨l2, hl2, hF⟩ := ih (fun x hx => h x (List.mem_cons_of_mem a hx))
    refine ⟨b :: l2, ?_, List.Forall₂.cons hR hF⟩
    rw [List.mapM_cons, hb, hl2]
    rfl

theorem expandEnv_flattenEnv (c : Val) (hc : isEnvEntry c = true) :
    ∃ e, expandEnv c = some e ∧ ∃ o, flattenEnv e = some o ∧ EnvRestored c o := by
  cases c <;> simp [isEnvEntry] at hc
  rename_i m
  obtain ⟨⟨hk, hv⟩, hs⟩ := hc
  cases hkey : GoMap.get m "key" <;> simp [hkey, Val.isStr] at hk
  rename_i k
  clear hk
  cases hval : GoMap.get m "value" <;> simp [hval, Val.isStrOrNil] at hv <;>
  cases hsec : GoMap.get m "secret" <;> simp [hsec, Val.isStrOrNil] at hs <;>
  simp only [expandEnv, hkey, hval, hsec, Val.asMap, Val.asString,
      Val.notNil, toOpt, Option.bind_eq_bind, Option.some_bind, Option.pure_def]
  ·
    (refine ⟨_, by simp [*]; rfl, ?_⟩
     simp only [flattenEnv, DeploymentEnv.GetValueOk, DeploymentEnv.GetSecretOk,
       Option.bind_eq_bind, Option.some_bind, Option.pure_def]
     refine ⟨_, by simp; rfl, m, rfl, ?_⟩
     simp only [hkey, hval, hsec, Val.setsString]
     simp [GoMap.get, GoMap.put, GoMap.has, List.lookup, Val.asString, *])
  · rename_i s
    by_cases hs0 : s = "" <;>
    (refine ⟨_, by simp [*]; rfl, ?_⟩
     simp only [flattenEnv, DeploymentEnv.GetValueOk, DeploymentEnv.GetSecretOk,
       Option.bind_eq_bind, Option.some_bind, Option.pure_def]
     refine ⟨_, by simp; rfl, m, rfl, ?_⟩
     simp only [hkey, hval, hsec, Val.setsString]
     simp [GoMap.get, GoMap.put, GoMap.has, List.lookup, Val.asString, *])
  · rename_i v
    by_cases hv0 : v = "" <;>
    (refine ⟨_, by simp [*]; rfl, ?_⟩
     simp only [flattenEnv, DeploymentEnv.GetValueOk, DeploymentEnv.GetSecretOk,
       Option.bind_eq_bind, Option.some_bind, Option.pure_def]
     refine ⟨_, by simp; rfl, m, rfl, ?_⟩
     simp only [hkey, hval, hsec, Val.setsString]
     simp [GoMap.get, GoMap.put, GoMap.has, List.lookup, Val.asString, *])
  · rename_i v s
    by_cases hv0 : v = "" <;> by_cases hs0 : s = "" <;>
    (refine ⟨_, by simp [*]; rfl, ?_⟩
     simp only [flattenEnv, DeploymentEnv.GetValueOk, DeploymentEnv.GetSecretOk,
       Option.bind_eq_bind, Option.some_bind, Option.pure_def]
     refine ⟨_, by simp; rfl, m, rfl, ?_⟩
     simp only [hkey, hval, hsec, Val.setsString]
     simp [GoMap.get, GoMap.put, GoMap.has, List.lookup, Val.asString, *])

theorem mapM_of_forall₂ {α β γ : Type} (g : β → Option γ) (S : α → γ → Prop) :
    ∀ (l : List α) (l2 : List β),
      List.Forall₂ (fun a b => ∃ c, g b = some c ∧ S a c) l l2 →
      ∃ l3, l2.mapM g = some l3 ∧ List.Forall₂ S l l3 := by
  intro l l2 h
  induction h with
  | nil => exact ⟨[], rfl, List.Forall₂.nil⟩
  | cons hab _ ih =>
    obtain ⟨c, hc, hS⟩ := hab
    obtain ⟨l3, hl3, hF⟩ := ih
    refine ⟨c :: l3, ?_, List.Forall₂.cons hS hF⟩
    rw [List.mapM_cons, hc, hl3]
    rfl

/-! ## Lemmas on the deployment-definition codec -/

theorem withGit_docker (dd dd2 : DeploymentDefinition) (git : List Val)
    (h : withGit dd git = some dd2) : dd2.Docker = dd.Docker := by
  unfold withGit at h
  split at h
  · cases hg : expandGitSource git with
    | none => simp [hg] at h
    | some g => simp [hg] at h; subst h; rfl
  · simp at h; subst h; rfl

theorem withGit_nil (dd dd2 : DeploymentDefinition)
    (h : withGit dd [] = some dd2) : dd2.Git = dd.Git := by
  simp [withGit] at h
  subst h; rfl

theorem withDocker_git (dd dd2 : DeploymentDefinition) (docker : List Val)
    (h : withDocker dd docker = some dd2) : dd2.Git = dd.Git := by
  unfold withDocker at h
  split at h
  · cases hg : expandDockerSource docker with
    | none => simp [hg] at h
    | some g => simp [hg] at h; subst h; rfl
  · simp at h; subst h; rfl

theorem withDocker_nil (dd dd2 : DeploymentDefinition)
    (h : withDocker dd [] = some dd2) : dd2.Docker = dd.Docker := by
  simp [withDocker] at h
  subst h; rfl

theorem flatten_none_of_git_none (dd : DeploymentDefinition) (h : dd.Git = none) :
    flattenDeploymentDefinition (some dd) = none := by
  simp [flattenDeploymentDefinition, flattenGit, h]

theorem flatten_none_of_docker_none (dd : DeploymentDefinition) (h : dd.Docker = none) :
    flattenDeploymentDefinition (some dd) = none := by
  simp [flattenDeploymentDefinition, flattenDocker, h]

theorem expand_sources (cfg : GoMap) (dd : DeploymentDefinition)
    (h : expandDeploymentDefinition cfg = some dd) :
    ∃ git docker d0 d1, (cfg.get "git").asSetList = some git ∧
      (cfg.get "docker").asSetList = some docker ∧ d0.Git = none ∧ d0.Docker = none ∧
      withGit d0 git = some d1 ∧ withDocker d1 docker = some dd := by
  simp only [expandDeploymentDefinition, Option.bind_eq_bind, Option.bind_eq_some,
    Option.pure_def] at h
  obtain ⟨name, -, env, -, ports, -, routes, -, sc, -, it, -, reg, -, git, hgit, d1, hd1,
    docker, hdocker, d2, hd2, hdd⟩ := h
  simp at hdd
  subst hdd
  exact ⟨git, docker, _, d1, hgit, hdocker, rfl, rfl, hd1, hd2⟩

/-! ## The encoder is total on schema-typed input -/

theorem mapM_total {α β : Type} (f : α → Option β) (p : α → Bool)
    (h : ∀ a, p a = true → ∃ b, f a = some b) (l : List α) (hl : l.all p = true) :
    ∃ out, l.mapM f = some out := by
  obtain ⟨out, hout, -⟩ := mapM_forall₂ f (fun _ _ => True) l (fun a ha => by
    obtain ⟨b, hb⟩ := h a (List.all_eq_true.mp hl a ha)
    exact ⟨b, hb, trivial⟩)
  exact ⟨out, hout⟩

theorem asString_of_isStr (v : Val) (h : v.isStr = true) : ∃ s, v.asString = some s := by
  cases v <;> simp [Val.isStr] at h
  exact ⟨_, rfl⟩

theorem asInt_of_isInt (v : Val) (h : v.isInt = true) : ∃ s, v.asInt = some s := by
  cases v <;> simp [Val.isInt] at h
  exact ⟨_, rfl⟩

theorem asBool_of_isBool (v : Val) (h : v.isBool = true) : ∃ s, v.asBool = some s := by
  cases v <;> simp [Val.isBool] at h
  exact ⟨_, rfl⟩

theorem expandEnv_total (c : Val) (h : isEnvEntry c = true) : ∃ e, expandEnv c = some e := by
  obtain ⟨e, he, -⟩ := expandEnv_flattenEnv c h
  exact ⟨e, he⟩

theorem expandPort_total (c : Val) (h : isPortEntry c = true) : ∃ e, expandPort c = some e := by
  cases c <;> simp [isPortEntry] at h
  rename_i m
  obtain ⟨n, hn⟩ := asInt_of_isInt _ h.1
  obtain ⟨q, hq⟩ := asString_of_isStr _ h.2
  exact ⟨_, by simp [expandPort, Val.asMap, hn, hq]; rfl⟩

theorem expandRoute_total (c : Val) (h : isRouteEntry c = true) :
    ∃ e, expandRoute c = some e := by
  cases c <;> simp [isRouteEntry] at h
  rename_i m
  obtain ⟨n, hn⟩ := asInt_of_isInt _ h.1
  obtain ⟨q, hq⟩ := asString_of_isStr _ h.2
  exact ⟨_, by simp [expandRoute, Val.asMap, hn, hq]; rfl⟩

theorem expandInstanceType_total (c : Val) (h : isInstanceTypeEntry c = true) :
    ∃ e, expandInstanceType c = some e := by
  cases c <;> simp [isInstanceTypeEntry] at h
  rename_i m
  obtain ⟨q, hq⟩ := asString_of_isStr _ h
  exact ⟨_, by simp [expandInstanceType, Val.asMap, hq]; rfl⟩

theorem expandScaling_total (c : Val) (h : isScalingEntry c = true) :
    ∃ e, expandScaling c = some e := by
  cases c <;> simp [isScalingEntry] at h
  rename_i m
  obtain ⟨n, hn⟩ := asInt_of_isInt _ h.1
  obtain ⟨q, hq⟩ := asInt_of_isInt _ h.2
  exact ⟨_, by simp [expandScaling, Val.asMap, hn, hq]; rfl⟩

theorem expandGitSource_total (c : Val) (rest : List Val) (h : isGitEntry c = true) :
    ∃ g, expandGitSource (c :: rest) = some g := by
  cases c <;> simp [isGitEntry] at h
  rename_i m
  obtain ⟨⟨⟨⟨h1, h2⟩, h3⟩, h4⟩, h5⟩ := h
  obtain ⟨a1, e1⟩ := asString_of_isStr _ h1
  obtain ⟨a2, e2⟩ := asString_of_isStr _ h2
  obtain ⟨a3, e3⟩ := asString_of_isStr _ h3
  obtain ⟨a4, e4⟩ := asString_of_isStr _ h4
  obtain ⟨a5, e5⟩ := asBool_of_isBool _ h5
  exact ⟨_, by simp [expandGitSource, Val.asMap, e1, e2, e3, e4, e5]; rfl⟩

theorem strList_total (v : Val) (h : v.isStrList = true) :
    ∃ l, v.asList = some l ∧ ∃ args, l.mapM Val.asString = some args := by
  cases v <;> simp [Val.isStrList] at h
  rename_i xs
  obtain ⟨args, hargs⟩ := mapM_total Val.asString Val.isStr asString_of_isStr xs
    (List.all_eq_true.mpr h)
  exact ⟨xs, rfl, args, hargs⟩

theorem asString_str (s : String) : (Val.str s).asString = some s := rfl

theorem notNil_str (s : String) : (Val.str s).notNil = true := rfl

theorem notNil_nil : Val.nil.notNil = false := rfl

theorem expandDockerSource_total (c : Val) (rest : List Val) (h : isDockerEntry c = true) :
    ∃ g, expandDockerSource (c :: rest) = some g := by
  cases c <;> simp [isDockerEntry] at h
  rename_i m
  obtain ⟨⟨⟨h1, h2⟩, h3⟩, h4⟩ := h
  obtain ⟨a1, e1⟩ := asString_of_isStr _ h1
  obtain ⟨l, el, args, eargs⟩ := strList_total _ h3
  cases hc : GoMap.get m "command" <;> simp [hc, Val.isStrOrNil] at h2 <;>
  cases hs : GoMap.get m "image_registry_secret" <;> simp [hs, Val.isStrOrNil] at h4
  all_goals
    simp only [expandDockerSource, Val.asMap, asString_str, notNil_str, notNil_nil, e1, el,
      eargs, hc, hs, Option.bind_eq_bind, Option.some_bind, Option.pure_def, List.head?,
      if_true, Bool.false_eq_true, if_false]
    exact ⟨_, rfl⟩

theorem expandSet_total {α : Type} (f : List Val → Option α) (p : Val → Bool) (m : GoMap)
    (k : String) (hf : ∀ l, l.all p = true → ∃ out, f l = some out)
    (h : (m.get k).isSetOf p = true) : ∃ out, expandSet f m k = some out := by
  cases hv : m.get k <;> simp [hv, Val.isSetOf] at h
  rename_i xs
  obtain ⟨out, hout⟩ := hf xs (List.all_eq_true.mpr h)
  exact ⟨out, by simp [expandSet, hv, Val.asSetList, hout]⟩

theorem withGit_total (dd : DeploymentDefinition) (git : List Val)
    (h : git.all isGitEntry = true) :
    ∃ dd2, withGit dd git = some dd2 ∧ dd2.Docker = dd.Docker ∧
      (git = [] → dd2.Git = dd.Git) ∧ (git ≠ [] → dd2.Git.isSome = true) := by
  cases git with
  | nil => exact ⟨dd, by simp [withGit], rfl, fun _ => rfl, fun hne => absurd rfl hne⟩
  | cons c rest =>
    simp at h
    obtain ⟨g, hg⟩ := expandGitSource_total c rest h.1
    exact ⟨{ dd with Git := some g }, by simp [withGit, hg], rfl, fun hnil => absurd hnil (List.cons_ne_nil _ _),
      fun _ => rfl⟩

theorem withDocker_total (dd : DeploymentDefinition) (docker : List Val)
    (h : docker.all isDockerEntry = true) :
    ∃ dd2, withDocker dd docker = some dd2 ∧ dd2.Git = dd.Git ∧
      (docker = [] → dd2.Docker = dd.Docker) ∧ (docker ≠ [] → dd2.Docker.isSome = true) := by
  cases docker with
  | nil => exact ⟨dd, by simp [withDocker], rfl, fun _ => rfl, fun hne => absurd rfl hne⟩
  | cons c rest =>
    simp at h
    obtain ⟨g, hg⟩ := expandDockerSource_total c rest h.1
    exact ⟨{ dd with Docker := some g }, by simp [withDocker, hg], rfl, fun hnil => absurd hnil (List.cons_ne_nil _ _),
      fun _ => rfl⟩

theorem isSetOf_asSetList (p : Val → Bool) (v : Val) (h : v.isSetOf p = true) :
    ∃ xs, v.asSetList = some xs ∧ xs.all p = true := by
  cases v <;> simp [Val.isSetOf] at h
  exact ⟨_, rfl, List.all_eq_true.mpr h⟩

theorem expandDeploymentDefinition_total (cfg : GoMap) (h : isDefinitionConfig cfg = true) :
    ∃ dd, expandDeploymentDefinition cfg = some dd ∧
      (gitBlocks cfg = [] → dd.Git = none) ∧ (gitBlocks cfg ≠ [] → dd.Git.isSome = true) ∧
      (dockerBlocks cfg = [] → dd.Docker = none) ∧
      (dockerBlocks cfg ≠ [] → dd.Docker.isSome = true) := by
  simp only [isDefinitionConfig, Bool.and_eq_true] at h
  obtain ⟨⟨⟨⟨⟨⟨⟨⟨hname, hdocker⟩, hgit⟩, henv⟩, hports⟩, hroutes⟩, htypes⟩, hscalings⟩,
    hregions⟩ := h
  obtain ⟨name, ename⟩ := asString_of_isStr _ hname
  obtain ⟨env, eenv⟩ := expandSet_total expandEnvs isEnvEntry cfg "env"
    (mapM_total expandEnv isEnvEntry expandEnv_total) henv
  obtain ⟨ports, eports⟩ := expandSet_total expandPorts isPortEntry cfg "ports"
    (mapM_total expandPort isPortEntry expandPort_total) hports
  obtain ⟨routes, eroutes⟩ := expandSet_total expandRoutes isRouteEntry cfg "routes"
    (mapM_total expandRoute isRouteEntry expandRoute_total) hroutes
  obtain ⟨scalings, escalings⟩ := expandSet_total expandScalings isScalingEntry cfg "scalings"
    (mapM_total expandScaling isScalingEntry expandScaling_total) hscalings
  obtain ⟨types, etypes⟩ := expandSet_total expandInstanceTypes isInstanceTypeEntry cfg
    "instance_types" (mapM_total expandInstanceType isInstanceTypeEntry expandInstanceType_total)
    htypes
  obtain ⟨regions, eregions⟩ := expandSet_total expandRegions Val.isStr cfg "regions"
    (mapM_total Val.asString Val.isStr asString_of_isStr) hregions
  obtain ⟨git, egit, hgitall⟩ := isSetOf_asSetList _ _ hgit
  obtain ⟨docker, edocker, hdockerall⟩ := isSetOf_asSetList _ _ hdocker
  obtain ⟨d1, hd1, hd1D, hd1nil, hd1some⟩ := withGit_total
    { Name := toOpt name, Env := some env, Ports := some ports, Routes := some routes,
      Scalings := some scalings, InstanceTypes := some types, Regions := some regions }
    git hgitall
  obtain ⟨d2, hd2, hd2G, hd2nil, hd2some⟩ := withDocker_total d1 docker hdockerall
  refine ⟨d2, ?_, ?_, ?_, ?_, ?_⟩
  · simp only [expandDeploymentDefinition, ename, eenv, eports, eroutes, escalings, etypes,
      eregions, egit, edocker, hd1, hd2, Option.bind_eq_bind, Option.some_bind, Option.pure_def]
  · intro hnil
    simp only [gitBlocks, egit, Option.getD_some] at hnil
    rw [hd2G, hd1nil hnil]
  · intro hne
    simp only [gitBlocks, egit, Option.getD_some] at hne
    rw [hd2G]
    exact hd1some hne
  · intro hnil
    simp only [dockerBlocks, edocker, Option.getD_some] at hnil
    rw [hd2nil hnil, hd1D]
  · intro hne
    simp only [dockerBlocks, edocker, Option.getD_some] at hne
    exact hd2some hne

/-! ## Lemmas on the service lifecycle -/

theorem expandConfiguredDefinition_eq (d : ResourceData) (cfg : GoMap)
    (hd : d.Get "definition" = Val.set [Val.map cfg]) :
    expandConfiguredDefinition d = expandDeploymentDefinition cfg := by
  simp [expandConfiguredDefinition, hd, Val.asSetList, Val.asMap]

theorem update_sends_definition {σ : Type} (client : Client σ) (d : ResourceData) (s : σ)
    (dd : DeploymentDefinition) (h : expandConfiguredDefinition d = some dd) :
    (resourceKoyebServiceUpdate client d s).trace.head? =
      some (Event.updateService d.Id { Definition := some dd }
        (client.UpdateService d.Id { Definition := some dd } s).1) := by
  simp only [resourceKoyebServiceUpdate, h]
  split
  · rfl
  · split <;> rfl

theorem create_sends_definition {σ : Type} (client : Client σ) (d : ResourceData) (s : σ)
    (name : String) (dd : DeploymentDefinition) (hname : d.Get "app_name" = Val.str name)
    (hne : name ≠ "") (hres : (client.ResolveID name s).1.2 = none)
    (h : expandConfiguredDefinition d = some dd) :
    Event.createService { AppId := some (client.ResolveID name s).1.1, Definition := some dd }
        (client.CreateService
          { AppId := some (client.ResolveID name s).1.1, Definition := some dd }
          (client.ResolveID name s).2).1
      ∈ (resourceKoyebServiceCreate client d s).trace := by
  simp only [resourceKoyebServiceCreate, hname, asString_str, resolveAppId, h, hres]
  simp [hne, createServiceCall]
  split
  · simp
  · split
    · simp
    · split <;> simp

/-! ## Lemmas on reads and deletes -/

theorem appRead_not_found {σ : Type} (flattenDomains : Option (List Domain) → String → Val)
    (client : Client σ) (d : ResourceData) (s : σ)
    (herr : (client.GetApp d.Id s).1.err.isSome = true)
    (hresp : (client.GetApp d.Id s).1.resp = some { StatusCode := 404 }) :
    resourceKoyebAppRead flattenDomains client d s =
      { exit := Exit.returned [], d := d.SetId "", remote := (client.GetApp d.Id s).2,
        trace := [Event.getApp d.Id (client.GetApp d.Id s).1] } := by
  simp [resourceKoyebAppRead, herr, hresp]

theorem appRead_no_response {σ : Type} (flattenDomains : Option (List Domain) → String → Val)
    (client : Client σ) (d : ResourceData) (s : σ)
    (herr : (client.GetApp d.Id s).1.err.isSome = true)
    (hresp : (client.GetApp d.Id s).1.resp = none) :
    resourceKoyebAppRead flattenDomains client d s =
      { exit := Exit.panicked, d := d, remote := (client.GetApp d.Id s).2,
        trace := [Event.getApp d.Id (client.GetApp d.Id s).1] } := by
  simp [resourceKoyebAppRead, herr, hresp]

theorem appRead_other_status {σ : Type} (flattenDomains : Option (List Domain) → String → Val)
    (client : Client σ) (d : ResourceData) (s : σ) (resp : HttpResponse)
    (herr : (client.GetApp d.Id s).1.err.isSome = true)
    (hresp : (client.GetApp d.Id s).1.resp = some resp) (hne : resp.StatusCode ≠ 404) :
    resourceKoyebAppRead flattenDomains client d s =
      { exit := Exit.returned (Errorf "Error retrieving app: (%s) %s (%v %v)"), d := d,
        remote := (client.GetApp d.Id s).2,
        trace := [Event.getApp d.Id (client.GetApp d.Id s).1] } := by
  simp [resourceKoyebAppRead, herr, hresp, hne]

theorem serviceRead_not_found {σ : Type} (client : Client σ) (d : ResourceData) (s : σ)
    (herr : (client.GetService d.Id s).1.err.isSome = true)
    (hresp : (client.GetService d.Id s).1.resp = some { StatusCode := 404 }) :
    resourceKoyebServiceRead client d s =
      { exit := Exit.returned [], d := d.SetId "", remote := (client.GetService d.Id s).2,
        trace := [Event.getService d.Id (client.GetService d.Id s).1] } := by
  simp [resourceKoyebServiceRead, herr, hresp]

theorem serviceRead_no_response {σ : Type} (client : Client σ) (d : ResourceData) (s : σ)
    (herr : (client.GetService d.Id s).1.err.isSome = true)
    (hresp : (client.GetService d.Id s).1.resp = none) :
    resourceKoyebServiceRead client d s =
      { exit := Exit.panicked, d := d, remote := (client.GetService d.Id s).2,
        trace := [Event.getService d.Id (client.GetService d.Id s).1] } := by
  simp [resourceKoyebServiceRead, herr, hresp]

theorem serviceRead_other_status {σ : Type} (client : Client σ) (d : ResourceData) (s : σ)
    (resp : HttpResponse) (herr : (client.GetService d.Id s).1.err.isSome = true)
    (hresp : (client.GetService d.Id s).1.resp = some resp) (hne : resp.StatusCode ≠ 404) :
    resourceKoyebServiceRead client d s =
      { exit := Exit.returned (Errorf "Error retrieving service: %s (%v %v)"), d := d,
        remote := (client.GetService d.Id s).2,
        trace := [Event.getService d.Id (client.GetService d.Id s).1] } := by
  simp [resourceKoyebServiceRead, herr, hresp, hne]

theorem Errorf_ne_nil (format : String) : Errorf format ≠ [] := by
  simp [Errorf]

theorem serviceDelete_failed {σ : Type} (client : Client σ) (d : ResourceData) (s : σ)
    (herr : (client.DeleteService d.Id s).1.err.isSome = true) :
    resourceKoyebServiceDelete client d s =
      { exit := Exit.returned (Errorf "Error deleting service: %s (%v %v)"), d := d,
        remote := (client.DeleteService d.Id s).2,
        trace := [Event.deleteService d.Id (client.DeleteService d.Id s).1] } := by
  simp [resourceKoyebServiceDelete, herr]

theorem serviceDelete_ok {σ : Type} (client : Client σ) (d : ResourceData) (s : σ)
    (herr : (client.DeleteService d.Id s).1.err = none) :
    resourceKoyebServiceDelete client d s =
      { exit := Exit.returned [], d := d.SetId "",
        remote := (client.DeleteService d.Id s).2,
        trace := [Event.deleteService d.Id (client.DeleteService d.Id s).1] } := by
  simp [resourceKoyebServiceDelete, herr]

theorem appDelete_list_failed {σ : Type} (client : Client σ) (d : ResourceData) (fuel : Nat)
    (s : σ) (herr : (client.ListServices d.Id "100" s).1.err.isSome = true) :
    resourceKoyebAppDelete client d (fuel + 1) s =
      { exit := Exit.returned (Errorf "Error retrieving service: %s (%v %v)"), d := d,
        remote := (client.ListServices d.Id "100" s).2,
        trace := [Event.listServices d.Id "100" (client.ListServices d.Id "100" s).1] } := by
  simp [resourceKoyebAppDelete, herr]

theorem appDelete_drained_failed {σ : Type} (client : Client σ) (d : ResourceData) (fuel : Nat)
    (s : σ) (hlist : (client.ListServices d.Id "100" s).1.err = none)
    (hzero : getCount (client.ListServices d.Id "100" s).1.res = 0)
    (herr : (client.DeleteApp d.Id (client.ListServices d.Id "100" s).2).1.err.isSome = true) :
    resourceKoyebAppDelete client d (fuel + 1) s =
      { exit := Exit.returned (Errorf "Error deleting app: %s (%v %v)"), d := d,
        remote := (client.DeleteApp d.Id (client.ListServices d.Id "100" s).2).2,
        trace := [Event.listServices d.Id "100" (client.ListServices d.Id "100" s).1,
          Event.deleteApp d.Id (client.DeleteApp d.Id (client.ListServices d.Id "100" s).2).1] } := by
  simp [resourceKoyebAppDelete, hlist, hzero, herr]

theorem appDelete_drained_ok {σ : Type} (client : Client σ) (d : ResourceData) (fuel : Nat)
    (s : σ) (hlist : (client.ListServices d.Id "100" s).1.err = none)
    (hzero : getCount (client.ListServices d.Id "100" s).1.res = 0)
    (herr : (client.DeleteApp d.Id (client.ListServices d.Id "100" s).2).1.err = none) :
    resourceKoyebAppDelete client d (fuel + 1) s =
      { exit := Exit.returned [], d := d.SetId "",
        remote := (client.DeleteApp d.Id (client.ListServices d.Id "100" s).2).2,
        trace := [Event.listServices d.Id "100" (client.ListServices d.Id "100" s).1,
          Event.deleteApp d.Id (client.DeleteApp d.Id (client.ListServices d.Id "100" s).2).1] } := by
  simp [resourceKoyebAppDelete, hlist, hzero, herr]

/-! ## Lemmas on the deletion loop -/

theorem deleteListedServices_ok {σ : Type} (client : Client σ) (P : σ → Prop)
    (hok : ∀ id s, (client.DeleteService id s).1.err = none)
    (hP : ∀ id s, P s → P (client.DeleteService id s).2) :
    ∀ (services : List ServiceListItem) (s : σ), P s →
      (deleteListedServices client services s).1 = none ∧
      P (deleteListedServices client services s).2.1 ∧
      List.Forall₂ (fun svc e => ∃ r, e = Event.deleteService svc.GetId r ∧ r.err = none)
        (activeServices services) (deleteListedServices client services s).2.2 := by
  intro services
  induction services with
  | nil => intro s hs; exact ⟨rfl, hs, List.Forall₂.nil⟩
  | cons svc rest ih =>
    intro s hs
    by_cases hskip : skipped svc = true
    · have hstep : deleteListedServices client (svc :: rest) s =
          deleteListedServices client rest s := by
        simp [deleteListedServices, hskip]
      rw [hstep]
      have hact : activeServices (svc :: rest) = activeServices rest := by
        simp [activeServices, hskip]
      rw [hact]
      exact ih s hs
    · have hstep : deleteListedServices client (svc :: rest) s =
          ((deleteListedServices client rest (client.DeleteService svc.GetId s).2).1,
           (deleteListedServices client rest (client.DeleteService svc.GetId s).2).2.1,
           Event.deleteService svc.GetId (client.DeleteService svc.GetId s).1 ::
             (deleteListedServices client rest (client.DeleteService svc.GetId s).2).2.2) := by
        simp [deleteListedServices, hskip, hok]
      rw [hstep]
      have hact : activeServices (svc :: rest) = svc :: activeServices rest := by
        simp [activeServices, hskip]
      rw [hact]
      obtain ⟨h1, h2, h3⟩ := ih (client.DeleteService svc.GetId s).2 (hP _ _ hs)
      exact ⟨h1, h2, List.Forall₂.cons ⟨_, rfl, hok _ _⟩ h3⟩

theorem length_activeServices (services : List ServiceListItem) :
    (activeServices services).length = services.length - (services.filter skipped).length := by
  induction services with
  | nil => rfl
  | cons svc rest ih =>
    by_cases hskip : skipped svc = true
    · simp [activeServices, hskip] at ih ⊢
      omega
    · have hle : (rest.filter skipped).length ≤ rest.length := List.length_filter_le _ _
      simp [activeServices, hskip] at ih ⊢
      omega

theorem appDelete_zero {σ : Type} (client : Client σ) (d : ResourceData) (s : σ) :
    resourceKoyebAppDelete client d 0 s =
      { exit := Exit.looping, d := d, remote := s, trace := [] } := rfl

theorem appDelete_loop_failed {σ : Type} (client : Client σ) (d : ResourceData) (fuel : Nat)
    (s : σ) (diags : Diagnostics) (hlist : (client.ListServices d.Id "100" s).1.err = none)
    (hcount : getCount (client.ListServices d.Id "100" s).1.res ≠ 0)
    (hloop : (deleteListedServices client (getServices (client.ListServices d.Id "100" s).1.res)
      (client.ListServices d.Id "100" s).2).1 = some diags) :
    resourceKoyebAppDelete client d (fuel + 1) s =
      { exit := Exit.returned diags, d := d,
        remote := (deleteListedServices client
          (getServices (client.ListServices d.Id "100" s).1.res)
          (client.ListServices d.Id "100" s).2).2.1,
        trace := Event.listServices d.Id "100" (client.ListServices d.Id "100" s).1 ::
          (deleteListedServices client (getServices (client.ListServices d.Id "100" s).1.res)
            (client.ListServices d.Id "100" s).2).2.2 } := by
  simp [resourceKoyebAppDelete, hlist, hcount, hloop]

theorem appDelete_continue {σ : Type} (client : Client σ) (d : ResourceData) (fuel : Nat)
    (s : σ) (hlist : (client.ListServices d.Id "100" s).1.err = none)
    (hcount : getCount (client.ListServices d.Id "100" s).1.res ≠ 0)
    (hloop : (deleteListedServices client (getServices (client.ListServices d.Id "100" s).1.res)
      (client.ListServices d.Id "100" s).2).1 = none) :
    resourceKoyebAppDelete client d (fuel + 1) s =
      { resourceKoyebAppDelete client d fuel
          (deleteListedServices client (getServices (client.ListServices d.Id "100" s).1.res)
            (client.ListServices d.Id "100" s).2).2.1 with
        trace := Event.listServices d.Id "100" (client.ListServices d.Id "100" s).1 ::
          (deleteListedServices client (getServices (client.ListServices d.Id "100" s).1.res)
            (client.ListServices d.Id "100" s).2).2.2 ++
          Event.sleep 2 :: (resourceKoyebAppDelete client d fuel
            (deleteListedServices client (getServices (client.ListServices d.Id "100" s).1.res)
              (client.ListServices d.Id "100" s).2).2.1).trace } := by
  simp [resourceKoyebAppDelete, hlist, hcount, hloop]

theorem deleteListedServices_shape {σ : Type} (client : Client σ) :
    ∀ (services : List ServiceListItem) (s : σ),
      ((deleteListedServices client services s).1 = none ∧
        ∀ e ∈ (deleteListedServices client services s).2.2, e.loopOk = true) ∨
      (∃ pre e diags, (deleteListedServices client services s).1 = some diags ∧ diags ≠ [] ∧
        (deleteListedServices client services s).2.2 = pre ++ [e] ∧
        (∀ x ∈ pre, x.loopOk = true) ∧ e.loopFailed = true) := by
  intro services
  induction services with
  | nil => intro s; exact Or.inl ⟨rfl, by simp [deleteListedServices]⟩
  | cons svc rest ih =>
    intro s
    by_cases hskip : skipped svc = true
    · have hstep : deleteListedServices client (svc :: rest) s =
          deleteListedServices client rest s := by
        simp [deleteListedServices, hskip]
      rw [hstep]
      exact ih s
    · by_cases herr : (client.DeleteService svc.GetId s).1.err.isSome = true
      · have hstep : deleteListedServices client (svc :: rest) s =
            (some (Errorf "Error deleting service: %s (%v %v"),
             (client.DeleteService svc.GetId s).2,
             [Event.deleteService svc.GetId (client.DeleteService svc.GetId s).1]) := by
          simp [deleteListedServices, hskip, herr]
        rw [hstep]
        exact Or.inr ⟨[], _, _, rfl, Errorf_ne_nil _, rfl, by simp, by simpa [Event.loopFailed]⟩
      · have hnone : (client.DeleteService svc.GetId s).1.err = none := by
          simpa using herr
        have hstep : deleteListedServices client (svc :: rest) s =
            ((deleteListedServices client rest (client.DeleteService svc.GetId s).2).1,
             (deleteListedServices client rest (client.DeleteService svc.GetId s).2).2.1,
             Event.deleteService svc.GetId (client.DeleteService svc.GetId s).1 ::
               (deleteListedServices client rest (client.DeleteService svc.GetId s).2).2.2) := by
          simp [deleteListedServices, hskip, hnone]
        rw [hstep]
        have hev : (Event.deleteService svc.GetId (client.DeleteService svc.GetId s).1).loopOk
            = true := by simp [Event.loopOk, hnone]
        rcases ih (client.DeleteService svc.GetId s).2 with ⟨h1, h2⟩ | ⟨pre, e, diags, h1, h2, h3, h4, h5⟩
        · refine Or.inl ⟨h1, ?_⟩
          intro x hx
          rcases List.mem_cons.mp hx with rfl | hx
          · exact hev
          · exact h2 x hx
        · refine Or.inr ⟨Event.deleteService svc.GetId (client.DeleteService svc.GetId s).1 :: pre,
            e, diags, h1, h2, by simp [h3], ?_, h5⟩
          intro x hx
          rcases List.mem_cons.mp hx with rfl | hx
          · exact hev
          · exact h4 x hx

theorem DeleteRun.prepend {σ : Type} (d : ResourceData) (out : Outcome σ) (p : List Event)
    (hp : ∀ x ∈ p, x.loopOk = true) (h : DeleteRun d out) :
    DeleteRun d { out with trace := p ++ out.trace } := by
  have hmem : ∀ (q : List Event), (∀ x ∈ q, x.loopOk = true) → ∀ x ∈ p ++ q, x.loopOk = true := by
    intro q hq x hx
    rcases List.mem_append.mp hx with hx | hx
    · exact hp x hx
    · exact hq x hx
  rcases h with ⟨h1, h2, h3⟩ | ⟨pre, e, diags, h1, h2, h3, h4, h5, h6⟩ |
    ⟨pre, rl, ra, h1, h2, h3, h4, h5⟩
  · exact Or.inl ⟨h1, h2, hmem _ h3⟩
  · refine Or.inr (Or.inl ⟨p ++ pre, e, diags, ?_, hmem _ h2, h3, h4, h5, h6⟩)
    simp [h1]
  · refine Or.inr (Or.inr ⟨p ++ pre, rl, ra, ?_, hmem _ h2, h3, h4, h5⟩)
    simp [h1]

theorem appDelete_run {σ : Type} (client : Client σ) (d : ResourceData) :
    ∀ (fuel : Nat) (s : σ), DeleteRun d (resourceKoyebAppDelete client d fuel s) := by
  intro fuel
  induction fuel with
  | zero =>
    intro s
    exact Or.inl ⟨rfl, rfl, by simp [appDelete_zero]⟩
  | succ fuel ih =>
    intro s
    by_cases hlist : (client.ListServices d.Id "100" s).1.err.isSome = true
    · rw [appDelete_list_failed client d fuel s hlist]
      exact Or.inr (Or.inl ⟨[], _, _, rfl, by simp, by simpa [Event.loopFailed] using hlist,
        rfl, Errorf_ne_nil _, rfl⟩)
    · have hnone : (client.ListServices d.Id "100" s).1.err = none := by simpa using hlist
      by_cases hzero : getCount (client.ListServices d.Id "100" s).1.res = 0
      · by_cases happ : (client.DeleteApp d.Id (client.ListServices d.Id "100" s).2).1.err.isSome
            = true
        · rw [appDelete_drained_failed client d fuel s hnone hzero happ]
          exact Or.inr (Or.inr ⟨[], _, _, rfl, by simp, hnone, hzero,
            Or.inr ⟨happ, _, rfl, Errorf_ne_nil _, rfl⟩⟩)
        · have happ0 : (client.DeleteApp d.Id (client.ListServices d.Id "100" s).2).1.err
              = none := by simpa using happ
          rw [appDelete_drained_ok client d fuel s hnone hzero happ0]
          exact Or.inr (Or.inr ⟨[], _, _, rfl, by simp, hnone, hzero,
            Or.inl ⟨happ0, rfl, rfl⟩⟩)
      · have hev : (Event.listServices d.Id "100" (client.ListServices d.Id "100" s).1).loopOk
            = true := by simp [Event.loopOk, hnone]
        rcases deleteListedServices_shape client
            (getServices (client.ListServices d.Id "100" s).1.res)
            (client.ListServices d.Id "100" s).2 with
          ⟨h1, h2⟩ | ⟨pre, e, diags, h1, h2, h3, h4, h5⟩
        · rw [appDelete_continue client d fuel s hnone hzero h1]
          have hp : ∀ x ∈ Event.listServices d.Id "100" (client.ListServices d.Id "100" s).1 ::
              (deleteListedServices client (getServices (client.ListServices d.Id "100" s).1.res)
                (client.ListServices d.Id "100" s).2).2.2 ++ [Event.sleep 2],
              x.loopOk = true := by
            intro x hx
            simp only [List.cons_append, List.mem_cons, List.mem_append, List.mem_singleton,
              List.not_mem_nil, or_false] at hx
            rcases hx with rfl | hx | rfl
            · exact hev
            · exact h2 x hx
            · rfl
          have := DeleteRun.prepend d _ _ hp (ih (deleteListedServices client
            (getServices (client.ListServices d.Id "100" s).1.res)
            (client.ListServices d.Id "100" s).2).2.1)
          simpa using this
        · rw [appDelete_loop_failed client d fuel s diags hnone hzero h1]
          refine Or.inr (Or.inl ⟨Event.listServices d.Id "100"
            (client.ListServices d.Id "100" s).1 :: pre, e, diags, by simp [h3], ?_, h5, rfl, h2,
            rfl⟩)
          intro x hx
          rcases List.mem_cons.mp hx with rfl | hx
          · exact hev
          · exact h4 x hx

theorem not_deleteApp_of_loopOk (e : Event) (h : e.loopOk = true) : e.isDeleteApp = false := by
  cases e <;> simp [Event.loopOk] at h <;> rfl

theorem not_deleteApp_of_loopFailed (e : Event) (h : e.loopFailed = true) :
    e.isDeleteApp = false := by
  cases e <;> simp [Event.loopFailed] at h <;> rfl

theorem not_loopFailed_of_loopOk (e : Event) (h : e.loopOk = true) : e.loopFailed = false := by
  cases e <;> simp [Event.loopOk] at h <;> simp [Event.loopFailed, h]

theorem last_deleteApp_unique (l a b : List Event) (x y : Event)
    (hl : ∀ z ∈ l, z.isDeleteApp = false) (hy : y.isDeleteApp = true)
    (h : l ++ [x] = a ++ y :: b) : a = l ∧ y = x ∧ b = [] := by
  induction l generalizing a with
  | nil =>
    cases a with
    | nil =>
      simp at h
      exact ⟨rfl, h.1.symm, h.2⟩
    | cons w a2 =>
      simp at h
  | cons z l ih =>
    cases a with
    | nil =>
      simp at h
      have := hl z (List.mem_cons_self z l)
      rw [h.1, hy] at this
      cases this
    | cons w a2 =>
      simp at h
      obtain ⟨h1, h2, h3⟩ := ih a2 (fun t ht => hl t (List.mem_cons_of_mem z ht)) h.2
      exact ⟨by rw [h.1, h1], h2, h3⟩

/-! ## Lemmas on draining -/

theorem deleteListedServices_all_skipped {σ : Type} (client : Client σ) :
    ∀ (services : List ServiceListItem) (s : σ), (∀ i ∈ services, skipped i = true) →
      deleteListedServices client services s = (none, s, []) := by
  intro services
  induction services with
  | nil => intro s _; rfl
  | cons svc rest ih =>
    intro s h
    have hskip : skipped svc = true := h svc (List.mem_cons_self svc rest)
    have hstep : deleteListedServices client (svc :: rest) s =
        deleteListedServices client rest s := by
      simp [deleteListedServices, hskip]
    rw [hstep]
    exact ih s (fun i hi => h i (List.mem_cons_of_mem svc hi))

theorem counts_of_deletes (active : List ServiceListItem) (t : List Event)
    (h : List.Forall₂ (fun svc e => ∃ r, e = Event.deleteService svc.GetId r ∧ r.err = none)
      active t) :
    t.filterMap Event.deletedService = active.map ServiceListItem.GetId ∧
    t.countP Event.isListServices = 0 ∧ t.countP Event.isDeleteApp = 0 := by
  induction h with
  | nil => exact ⟨rfl, rfl, rfl⟩
  | cons hab _ ih =>
    obtain ⟨r, rfl, -⟩ := hab
    obtain ⟨h1, h2, h3⟩ := ih
    refine ⟨?_, ?_, ?_⟩
    · simp [Event.deletedService, h1]
    · simp [Event.isListServices, h2]
    · simp [Event.isDeleteApp, h3]

theorem appDelete_polls {σ : Type} (client : Client σ) (d : ResourceData) (polls : σ → Nat)
    (k : Nat)
    (hlist : ∀ s, (client.ListServices d.Id "100" s).1.err = none)
    (happ : ∀ s, (client.DeleteApp d.Id s).1.err = none)
    (hpl : ∀ s, polls (client.ListServices d.Id "100" s).2 = polls s + 1)
    (hzero : ∀ s, getCount (client.ListServices d.Id "100" s).1.res = 0 ↔ k ≤ polls s + 1)
    (hlater : ∀ s, 0 < polls s → polls s + 1 < k →
      ∀ i ∈ getServices (client.ListServices d.Id "100" s).1.res, skipped i = true) :
    ∀ (m : Nat) (s : σ) (fuel : Nat), 0 < polls s → polls s + m = k → 0 < m → m ≤ fuel →
      (resourceKoyebAppDelete client d fuel s).exit = Exit.returned [] ∧
      (resourceKoyebAppDelete client d fuel s).d = d.SetId "" ∧
      (resourceKoyebAppDelete client d fuel s).trace.countP Event.isListServices = m ∧
      (resourceKoyebAppDelete client d fuel s).trace.filterMap Event.deletedService = [] ∧
      (resourceKoyebAppDelete client d fuel s).trace.countP Event.isDeleteApp = 1 ∧
      ∃ body rl ra, (resourceKoyebAppDelete client d fuel s).trace =
          body ++ [Event.listServices d.Id "100" rl, Event.deleteApp d.Id ra] ∧
        getCount rl.res = 0 := by
  intro m
  induction m with
  | zero => intro s fuel _ _ hm; omega
  | succ m ih =>
    intro s fuel hpos hsum _ hfuel
    obtain ⟨f, rfl⟩ : ∃ f, fuel = f + 1 := ⟨fuel - 1, by omega⟩
    by_cases hm : m = 0
    · subst hm
      have hz : getCount (client.ListServices d.Id "100" s).1.res = 0 :=
        (hzero s).mpr (by omega)
      rw [appDelete_drained_ok client d f s (hlist s) hz (happ _)]
      refine ⟨rfl, rfl, by simp [Event.isListServices], by simp [Event.deletedService],
        by simp [Event.isDeleteApp, Event.isListServices], [], _, _, rfl, hz⟩
    · have hnz : getCount (client.ListServices d.Id "100" s).1.res ≠ 0 := by
        intro hz
        have := (hzero s).mp hz
        omega
      have hskip := deleteListedServices_all_skipped client
        (getServices (client.ListServices d.Id "100" s).1.res)
        (client.ListServices d.Id "100" s).2 (hlater s hpos (by omega))
      rw [appDelete_continue client d f s (hlist s) hnz (by rw [hskip])]
      rw [hskip]
      obtain ⟨h1, h2, h3, h4, h5, body, rl, ra, h6, h7⟩ :=
        ih (client.ListServices d.Id "100" s).2 f (by rw [hpl]; omega) (by rw [hpl]; omega)
          (by omega) (by omega)
      refine ⟨h1, h2, ?_, ?_, ?_, ?_⟩
      · simp [Event.isListServices, h3]
      · simp [Event.deletedService, h4]
      · simp [Event.isDeleteApp, Event.isListServices, h5]
      · exact ⟨Event.listServices d.Id "100" (client.ListServices d.Id "100" s).1 ::
          Event.sleep 2 :: body, rl, ra, by simp [h6], h7⟩

/-! ## Lemmas on the update request -/

theorem withGit_ports (dd dd2 : DeploymentDefinition) (git : List Val)
    (h : withGit dd git = some dd2) : dd2.Ports = dd.Ports := by
  unfold withGit at h
  split at h
  · cases hg : expandGitSource git with
    | none => simp [hg] at h
    | some g => simp [hg] at h; subst h; rfl
  · simp at h; subst h; rfl

theorem withDocker_ports (dd dd2 : DeploymentDefinition) (docker : List Val)
    (h : withDocker dd docker = some dd2) : dd2.Ports = dd.Ports := by
  unfold withDocker at h
  split at h
  · cases hg : expandDockerSource docker with
    | none => simp [hg] at h
    | some g => simp [hg] at h; subst h; rfl
  · simp at h; subst h; rfl

theorem expand_ports (cfg : GoMap) (dd : DeploymentDefinition)
    (h : expandDeploymentDefinition cfg = some dd) :
    ∃ l ports, (cfg.get "ports").asSetList = some l ∧ expandPorts l = some ports ∧
      dd.Ports = some ports := by
  simp only [expandDeploymentDefinition, Option.bind_eq_bind, Option.bind_eq_some,
    Option.pure_def] at h
  obtain ⟨name, -, env, -, ports, hports, routes, -, sc, -, it, -, reg, -, git, -, d1, hd1,
    docker, -, d2, hd2, hdd⟩ := h
  simp at hdd
  subst hdd
  simp only [expandSet, Option.bind_eq_some] at hports
  obtain ⟨l, hl, hp⟩ := hports
  refine ⟨l, ports, hl, hp, ?_⟩
  rw [withDocker_ports d1 d2 docker hd2, withGit_ports _ d1 git hd1]

theorem update_trace {σ : Type} (client : Client σ) (d : ResourceData) (s : σ)
    (dd : DeploymentDefinition) (h : expandConfiguredDefinition d = some dd) :
    ∃ rest, (resourceKoyebServiceUpdate client d s).trace =
        Event.updateService d.Id { Definition := some dd }
          (client.UpdateService d.Id { Definition := some dd } s).1 :: rest ∧
      ∀ e ∈ rest, ∃ id r, e = Event.getService id r := by
  unfold resourceKoyebServiceUpdate
  simp only [h]
  split
  · exact ⟨[], rfl, by simp⟩
  · split
    · exact ⟨[], rfl, by simp⟩
    · refine ⟨_, rfl, ?_⟩
      intro e he
      unfold resourceKoyebServiceRead at he
      simp only at he
      split at he
      · split at he
        · simp at he; exact ⟨_, _, he⟩
        · split at he <;> (simp at he; exact ⟨_, _, he⟩)
      · split at he <;> (simp at he; exact ⟨_, _, he⟩)

/-! ## Lemmas on the element schemas -/

theorem isEnvEntry_of_accepts (c : Val) (h : accepts envSchema c = true) :
    isEnvEntry c = true := by
  cases c with
  | map m =>
    simp only [accepts, envSchema, List.all_cons, List.all_nil, Bool.and_true,
      Bool.and_eq_true] at h
    obtain ⟨h1, h2, h3⟩ := h
    simp only [isEnvEntry, Bool.and_eq_true]
    refine ⟨⟨?_, ?_⟩, ?_⟩
    · cases e : GoMap.get m "key" <;> simp [Schema.accepts, ValueType.holds, e] at h1
      rfl
    · cases e : GoMap.get m "value" <;> simp [Schema.accepts, ValueType.holds, e] at h2 <;> rfl
    · cases e : GoMap.get m "secret" <;> simp [Schema.accepts, ValueType.holds, e] at h3 <;> rfl
  | _ => simp [accepts] at h

theorem expandEnv_map (m : GoMap) (key : String) (hkey : GoMap.get m "key" = Val.str key)
    (hv : (GoMap.get m "value").isStrOrNil = true)
    (hs : (GoMap.get m "secret").isStrOrNil = true) :
    ∃ e, expandEnv (Val.map m) = some e ∧ e.Key = some key ∧
      (∀ v, e.Value = some v ↔ (GoMap.get m "value").setsString v) ∧
      (∀ s, e.Secret = some s ↔ (GoMap.get m "secret").setsString s) := by
  cases hval : GoMap.get m "value" <;> simp [hval, Val.isStrOrNil] at hv <;>
  cases hsec : GoMap.get m "secret" <;> simp [hsec, Val.isStrOrNil] at hs <;>
  simp only [expandEnv, hkey, hval, hsec, Val.asMap, Val.asString,
      Val.notNil, toOpt, Option.bind_eq_bind, Option.some_bind, Option.pure_def]
  · exact ⟨_, rfl, rfl, by simp [Val.setsString], by simp [Val.setsString]⟩
  · rename_i s
    by_cases hs0 : s = "" <;>
    exact ⟨_, by simp [hs0]; rfl, rfl, by simp [Val.setsString, hs0],
      by simp [Val.setsString, hs0]⟩
  · rename_i v
    by_cases hv0 : v = "" <;>
    exact ⟨_, by simp [hv0]; rfl, rfl, by simp [Val.setsString, hv0],
      by simp [Val.setsString, hv0]⟩
  · rename_i v s
    by_cases hv0 : v = "" <;> by_cases hs0 : s = "" <;>
    exact ⟨_, by simp [hv0, hs0]; rfl, rfl, by simp [Val.setsString, hv0, hs0],
      by simp [Val.setsString, hv0, hs0]⟩

/-! ## Lemmas on the route schema -/

theorem expandRoute_of_accepts (c : Val) (h : accepts routeSchema c = true) :
    ∃ r, expandRoute c = some r ∧ RouteEncoded c r := by
  cases c with
  | map m =>
    simp only [accepts, routeSchema, List.all_cons, List.all_nil, Bool.and_true,
      Bool.and_eq_true] at h
    obtain ⟨h1, h2⟩ := h
    cases e1 : GoMap.get m "port" <;>
      simp [Schema.accepts, ValueType.holds, IntBetween, e1] at h1
    cases e2 : GoMap.get m "path" <;> simp [Schema.accepts, ValueType.holds, e2] at h2
    rename_i n path
    refine ⟨{ Port := some n, Path := some path }, ?_, m, n, path, rfl, e1, h1.1, h1.2, e2, rfl⟩
    simp [expandRoute, Val.asMap, Val.asInt, Val.asString, toOpt, e1, e2]
  | _ => simp [accepts] at h

/-! ## Lemmas on creation -/

theorem resolveAppId_failed {σ : Type} (client : Client σ) (name : String) (s : σ)
    (hne : name ≠ "") (hres : (client.ResolveID name s).1.2.isSome = true) :
    resolveAppId client name s =
      (Except.error (Errorf "Error creating service: %s"), (client.ResolveID name s).2,
        [Event.resolveID name (client.ResolveID name s).1.1 (client.ResolveID name s).1.2]) := by
  simp [resolveAppId, hne, hres]

theorem resolveAppId_ok {σ : Type} (client : Client σ) (name : String) (s : σ)
    (hne : name ≠ "") (hres : (client.ResolveID name s).1.2 = none) :
    resolveAppId client name s =
      (Except.ok (client.ResolveID name s).1.1, (client.ResolveID name s).2,
        [Event.resolveID name (client.ResolveID name s).1.1 none]) := by
  simp [resolveAppId, hne, hres]

theorem serviceCreate_unresolved {σ : Type} (client : Client σ) (d : ResourceData) (s : σ)
    (name : String) (diags : Diagnostics) (hname : d.Get "app_name" = Val.str name)
    (hres : (resolveAppId client name s).1 = Except.error diags) :
    resourceKoyebServiceCreate client d s =
      { exit := Exit.returned diags, d := d, remote := (resolveAppId client name s).2.1,
        trace := (resolveAppId client name s).2.2 } := by
  unfold resourceKoyebServiceCreate
  simp only [hname, asString_str, hres]

theorem serviceCreate_resolved {σ : Type} (client : Client σ) (d : ResourceData) (s : σ)
    (name appId : String) (dd : DeploymentDefinition)
    (hname : d.Get "app_name" = Val.str name)
    (hres : (resolveAppId client name s).1 = Except.ok appId)
    (hdd : expandConfiguredDefinition d = some dd) :
    resourceKoyebServiceCreate client d s =
      { createServiceCall client d appId dd (resolveAppId client name s).2.1 with
        trace := (resolveAppId client name s).2.2 ++
          (createServiceCall client d appId dd (resolveAppId client name s).2.1).trace } := by
  unfold resourceKoyebServiceCreate
  simp only [hname, asString_str, hres, hdd]

theorem createServiceCall_failed {σ : Type} (client : Client σ) (d : ResourceData)
    (appId : String) (dd : DeploymentDefinition) (s : σ)
    (herr : (client.CreateService { AppId := some appId, Definition := some dd } s).1.err.isSome
      = true) :
    createServiceCall client d appId dd s =
      { exit := Exit.returned (Errorf "Error creating service: %s (%v %v)"), d := d,
        remote := (client.CreateService { AppId := some appId, Definition := some dd } s).2,
        trace := [Event.createService { AppId := some appId, Definition := some dd }
          (client.CreateService { AppId := some appId, Definition := some dd } s).1] } := by
  unfold createServiceCall
  simp only [herr, if_true]

theorem serviceRead_trace {σ : Type} (client : Client σ) (d : ResourceData) (s : σ) :
    (resourceKoyebServiceRead client d s).trace =
      [Event.getService d.Id (client.GetService d.Id s).1] := by
  unfold resourceKoyebServiceRead
  simp only
  split
  · split
    · rfl
    · split <;> rfl
  · split <;> rfl

theorem createServiceCall_trace {σ : Type} (client : Client σ) (d : ResourceData)
    (appId : String) (dd : DeploymentDefinition) (s : σ) :
    ∃ rest, (createServiceCall client d appId dd s).trace =
        Event.createService { AppId := some appId, Definition := some dd }
          (client.CreateService { AppId := some appId, Definition := some dd } s).1 :: rest ∧
      ∀ e ∈ rest, ∃ id r, e = Event.getService id r := by
  unfold createServiceCall
  simp only
  split
  · exact ⟨[], rfl, by simp⟩
  · split
    · exact ⟨[], rfl, by simp⟩
    · split
      · exact ⟨[], rfl, by simp⟩
      · refine ⟨_, rfl, ?_⟩
        intro e he
        rw [serviceRead_trace] at he
        simp at he
        exact ⟨_, _, he⟩

theorem appCreate_failed {σ : Type} (flattenDomains : Option (List Domain) → String → Val)
    (client : Client σ) (d : ResourceData) (s : σ) (name : String)
    (hname : d.Get "name" = Val.str name)
    (herr : (client.CreateApp { Name := some name } s).1.err.isSome = true) :
    resourceKoyebAppCreate flattenDomains client d s =
      { exit := Exit.returned (Errorf "Error creating app: %s (%v %v)"), d := d,
        remote := (client.CreateApp { Name := some name } s).2,
        trace := [Event.createApp { Name := some name }
          (client.CreateApp { Name := some name } s).1] } := by
  unfold resourceKoyebAppCreate
  simp only [hname, asString_str, Ptr, herr, if_true]

theorem resolveAppId_events {σ : Type} (client : Client σ) (name : String) (s : σ) :
    ∀ e ∈ (resolveAppId client name s).2.2, ∃ id err, e = Event.resolveID name id err := by
  intro e he
  unfold resolveAppId at he
  by_cases h1 : (name != "") = true
  · by_cases h2 : (client.ResolveID name s).1.2.isSome = true
    · simp [h1, h2] at he
      exact ⟨_, _, he⟩
    · simp [h1, h2] at he
      exact ⟨_, _, he⟩
  · simp [h1] at he

/-! ## Lemmas on the app attributes -/

theorem GoMap.get_put_same (m : GoMap) (k : String) (v : Val) : (m.put k v).get k = v := by
  simp [GoMap.get, GoMap.put, List.lookup]

theorem GoMap.lookup_filter_ne (m : GoMap) (k k2 : String) (h : k2 ≠ k) :
    (m.filter (fun e => e.1 != k)).lookup k2 = m.lookup k2 := by
  induction m with
  | nil => rfl
  | cons e m ih =>
    obtain ⟨a, b⟩ := e
    by_cases hak : a = k
    · subst hak
      have h2 : (k2 == a) = false := by simpa using h
      simp [List.filter, List.lookup, h2, ih]
    · have h3 : (a != k) = true := by simpa using hak
      by_cases hk2 : k2 = a
      · subst hk2
        simp [List.filter, List.lookup, h3]
      · have h4 : (k2 == a) = false := by simpa using hk2
        simp [List.filter, List.lookup, h3, h4, ih]

theorem GoMap.get_put_other (m : GoMap) (k k2 : String) (v : Val) (h : k2 ≠ k) :
    (m.put k v).get k2 = m.get k2 := by
  have h2 : (k2 == k) = false := by simpa using h
  simp only [GoMap.get, GoMap.put, List.lookup, h2]
  rw [GoMap.lookup_filter_ne m k k2 h]

theorem setAppAttribute_id (flattenDomains : Option (List Domain) → String → Val)
    (d : ResourceData) (app : App) : (setAppAttribute flattenDomains d app).Id = app.GetId :=
  rfl

theorem setAppAttribute_name (flattenDomains : Option (List Domain) → String → Val)
    (d : ResourceData) (app : App) :
    (setAppAttribute flattenDomains d app).Get "name" = Val.str app.GetName := by
  simp only [setAppAttribute, ResourceData.Get, ResourceData.Set, ResourceData.SetId]
  rw [GoMap.get_put_other _ _ _ _ (by decide), GoMap.get_put_other _ _ _ _ (by decide),
    GoMap.get_put_other _ _ _ _ (by decide), GoMap.get_put_other _ _ _ _ (by decide),
    GoMap.get_put_same]

theorem setAppAttribute_organization_id
    (flattenDomains : Option (List Domain) → String → Val) (d : ResourceData) (app : App) :
    (setAppAttribute flattenDomains d app).Get "organization_id" =
      Val.str app.GetOrganizationId := by
  simp only [setAppAttribute, ResourceData.Get, ResourceData.Set, ResourceData.SetId]
  rw [GoMap.get_put_other _ _ _ _ (by decide), GoMap.get_put_other _ _ _ _ (by decide),
    GoMap.get_put_other _ _ _ _ (by decide), GoMap.get_put_same]

theorem appRead_ok {σ : Type} (flattenDomains : Option (List Domain) → String → Val)
    (client : Client σ) (d : ResourceData) (s : σ) (app : App)
    (herr : (client.GetApp d.Id s).1.err = none)
    (hres : (client.GetApp d.Id s).1.res = some { App := some app }) :
    resourceKoyebAppRead flattenDomains client d s =
      { exit := Exit.returned [], d := setAppAttribute flattenDomains d app,
        remote := (client.GetApp d.Id s).2,
        trace := [Event.getApp d.Id (client.GetApp d.Id s).1] } := by
  unfold resourceKoyebAppRead
  simp [herr, hres]

theorem appCreate_ok {σ : Type} (flattenDomains : Option (List Domain) → String → Val)
    (client : Client σ) (d : ResourceData) (s : σ) (name created : String) (app : App)
    (hname : d.Get "name" = Val.str name)
    (herr : (client.CreateApp { Name := some name } s).1.err = none)
    (hres : (client.CreateApp { Name := some name } s).1.res = some { App := some app })
    (hcreated : app.Name = some created) :
    resourceKoyebAppCreate flattenDomains client d s =
      { resourceKoyebAppRead flattenDomains client (setAppAttribute flattenDomains d app)
          (client.CreateApp { Name := some name } s).2 with
        trace := Event.createApp { Name := some name }
            (client.CreateApp { Name := some name } s).1 ::
          (resourceKoyebAppRead flattenDomains client (setAppAttribute flattenDomains d app)
            (client.CreateApp { Name := some name } s).2).trace } := by
  unfold resourceKoyebAppCreate
  simp [hname, asString_str, Ptr, herr, hres, hcreated]

/-! ## Lemmas on the list encoders -/

theorem mapM_index {α β : Type} (f : α → Option β) :
    ∀ (l : List α) (out : List β), l.mapM f = some out →
      out.length = l.length ∧ ∀ i : Nat, out[i]? = l[i]?.bind f := by
  intro l
  induction l with
  | nil =>
    intro out h
    have h2 : out = [] := by
      have : ([] : List α).mapM f = some [] := rfl
      rw [this] at h
      exact (Option.some.inj h).symm
    subst h2
    exact ⟨rfl, fun i => by simp⟩
  | cons a l ih =>
    intro out h
    rw [List.mapM_cons] at h
    cases hb : f a with
    | none => rw [hb] at h; cases h
    | some b =>
      cases hl : l.mapM f with
      | none => rw [hb, hl] at h; cases h
      | some bs =>
        rw [hb, hl] at h
        have h2 : out = b :: bs := (Option.some.inj h).symm
        subst h2
        obtain ⟨hlen, hidx⟩ := ih bs hl
        refine ⟨by simp [hlen], ?_⟩
        intro i
        cases i with
        | zero => simp [hb]
        | succ j => simpa using hidx j

theorem mapM_ordered {α β : Type} (f : α → Option β) (p : α → Bool)
    (h : ∀ a, p a = true → ∃ b, f a = some b) (l : List α) (hl : l.all p = true) :
    ∃ out, l.mapM f = some out ∧ out.length = l.length ∧
      ∀ i : Nat, out[i]? = l[i]?.bind f := by
  obtain ⟨out, hout⟩ := mapM_total f p h l hl
  exact ⟨out, hout, mapM_index f l out hout⟩

/-! ## Claims -/

/-- C1 (the code departs from it). The claim asks `flattenDeploymentDefinition`
to restore every configuration with exactly one of docker / git.  In the code,
whenever the git block or the docker block of the configuration is empty, the
definition built by `expandDeploymentDefinition` has a nil `Git` or a nil
`Docker`, and `flattenDeploymentDefinition` dereferences it: the decoding
panics instead of yielding a map. -/
theorem flattenDeploymentDefinition_panics_without_both_sources (cfg : GoMap)
    (dd : DeploymentDefinition) (hexp : expandDeploymentDefinition cfg = some dd)
    (hone : (cfg.get "git").asSetList = some [] ∨ (cfg.get "docker").asSetList = some []) :
    flattenDeploymentDefinition (some dd) = none := by
  obtain ⟨git, docker, d0, d1, hgit, hdocker, hg0, hd0, h1, h2⟩ := expand_sources cfg dd hexp
  rcases hone with hg | hd
  · rw [hgit] at hg
    cases hg
    apply flatten_none_of_git_none
    rw [withDocker_git d1 dd docker h2, withGit_nil d0 d1 h1, hg0]
  · rw [hdocker] at hd
    cases hd
    apply flatten_none_of_docker_none
    rw [withDocker_nil d1 dd h2, withGit_docker d0 d1 git h1, hd0]

/-- Witness for C1: the docker-only `exampleDockerConfig` is encoded to
`exampleDockerDefinition`, whose decoding panics. -/
theorem flattenDeploymentDefinition_panics_without_both_sources_witness :
    expandDeploymentDefinition exampleDockerConfig = some exampleDockerDefinition ∧
      flattenDeploymentDefinition (some exampleDockerDefinition) = none :=
  ⟨rfl, flattenDeploymentDefinition_panics_without_both_sources exampleDockerConfig
    exampleDockerDefinition rfl (Or.inl rfl)⟩

/-- C2. For every list of environment-variable configuration entries,
`flattenEnvs(expandEnvs(cfg))` returns a list of the same length and order as
`cfg` in which entry i carries the key of `cfg[i]`, a reference to the same
value whenever `cfg[i]` sets a non-empty value, a reference to the same secret
whenever `cfg[i]` sets a non-empty secret, and no `value` or `secret` key that
`cfg[i]` did not set. -/
theorem flattenEnvs_expandEnvs_restores (cfg : List Val)
    (hcfg : ∀ c ∈ cfg, isEnvEntry c = true) :
    ∃ out, (expandEnvs cfg).bind (fun envs => flattenEnvs (some envs)) = some out ∧
      out.length = cfg.length ∧ List.Forall₂ EnvRestored cfg out := by
  obtain ⟨envs, henvs, hF⟩ := mapM_forall₂ expandEnv
    (fun c e => ∃ o, flattenEnv e = some o ∧ EnvRestored c o) cfg
    (fun c hc => expandEnv_flattenEnv c (hcfg c hc))
  obtain ⟨out, hout, hR⟩ := mapM_of_forall₂ flattenEnv EnvRestored cfg envs hF
  refine ⟨out, ?_, hR.length_eq.symm, hR⟩
  simp only [expandEnvs, henvs, Option.some_bind, flattenEnvs, Option.bind_eq_bind]
  exact hout

/-- Witness for C2 on `exampleEnvConfig`. -/
theorem flattenEnvs_expandEnvs_restores_witness :
    ∃ out, (expandEnvs exampleEnvConfig).bind (fun envs => flattenEnvs (some envs)) = some out ∧
      out.length = exampleEnvConfig.length ∧ List.Forall₂ EnvRestored exampleEnvConfig out :=
  flattenEnvs_expandEnvs_restores exampleEnvConfig (by
    intro c hc
    simp only [exampleEnvConfig, List.mem_cons, List.mem_singleton, List.not_mem_nil,
      or_false] at hc
    rcases hc with rfl | rfl <;> rfl)

/-- C3 fails at `exampleBothConfig`: the configuration is well typed and has
both a docker and a git block, yet `expandDeploymentDefinition` returns a
definition with both `Docker` and `Git` set, and service create sends it in a
`CreateService` call and returns without error. -/
theorem both_sources_not_rejected :
    isDefinitionConfig exampleBothConfig = true ∧
    dockerBlocks exampleBothConfig ≠ [] ∧ gitBlocks exampleBothConfig ≠ [] ∧
    expandDeploymentDefinition exampleBothConfig = some exampleBothDefinition ∧
    exampleBothDefinition.Docker.isSome = true ∧ exampleBothDefinition.Git.isSome = true ∧
    (resourceKoyebServiceCreate exampleClient exampleServiceData []).exit = Exit.returned [] ∧
    Event.createService
        { AppId := some "id-of-demo-app", Definition := some exampleBothDefinition }
        (exampleClient.CreateService
          { AppId := some "id-of-demo-app", Definition := some exampleBothDefinition } []).1
      ∈ (resourceKoyebServiceCreate exampleClient exampleServiceData []).trace := by
  refine ⟨rfl, ?_, ?_, rfl, rfl, rfl, rfl, ?_⟩
  · simp [dockerBlocks, exampleBothConfig, GoMap.get, List.lookup, Val.asSetList]
  · simp [gitBlocks, exampleBothConfig, GoMap.get, List.lookup, Val.asSetList]
  · decide

/-- C3 as amended. For every well-typed definition configuration in which both
the docker block and the git block are populated, `expandDeploymentDefinition`
raises no error and returns a definition with both `Docker` and `Git` set;
service update sends that definition as its first remote call, and service
create sends it in its `CreateService` call once the app name is resolved. -/
theorem both_sources_encoded_and_sent (cfg : GoMap) (hcfg : isDefinitionConfig cfg = true)
    (hdocker : dockerBlocks cfg ≠ []) (hgit : gitBlocks cfg ≠ []) :
    ∃ dd, expandDeploymentDefinition cfg = some dd ∧
      dd.Docker.isSome = true ∧ dd.Git.isSome = true ∧
      (∀ (σ : Type) (client : Client σ) (d : ResourceData) (s : σ),
        d.Get "definition" = Val.set [Val.map cfg] →
        (resourceKoyebServiceUpdate client d s).trace.head? =
          some (Event.updateService d.Id { Definition := some dd }
            (client.UpdateService d.Id { Definition := some dd } s).1)) ∧
      (∀ (σ : Type) (client : Client σ) (d : ResourceData) (s : σ) (name : String),
        d.Get "definition" = Val.set [Val.map cfg] → d.Get "app_name" = Val.str name →
        name ≠ "" → (client.ResolveID name s).1.2 = none →
        Event.createService { AppId := some (client.ResolveID name s).1.1, Definition := some dd }
            (client.CreateService
              { AppId := some (client.ResolveID name s).1.1, Definition := some dd }
              (client.ResolveID name s).2).1
          ∈ (resourceKoyebServiceCreate client d s).trace) := by
  obtain ⟨dd, hdd, -, hg, -, hd⟩ := expandDeploymentDefinition_total cfg hcfg
  refine ⟨dd, hdd, hd hdocker, hg hgit, ?_, ?_⟩
  · intro σ client d s hdef
    exact update_sends_definition client d s dd
      ((expandConfiguredDefinition_eq d cfg hdef).trans hdd)
  · intro σ client d s name hdef hname hne hres
    exact create_sends_definition client d s name dd hname hne hres
      ((expandConfiguredDefinition_eq d cfg hdef).trans hdd)

/-- Witness for C3 as amended, on `exampleBothConfig`. -/
theorem both_sources_encoded_and_sent_witness :
    ∃ dd, expandDeploymentDefinition exampleBothConfig = some dd ∧
      dd.Docker.isSome = true ∧ dd.Git.isSome = true ∧
      (∀ (σ : Type) (client : Client σ) (d : ResourceData) (s : σ),
        d.Get "definition" = Val.set [Val.map exampleBothConfig] →
        (resourceKoyebServiceUpdate client d s).trace.head? =
          some (Event.updateService d.Id { Definition := some dd }
            (client.UpdateService d.Id { Definition := some dd } s).1)) ∧
      (∀ (σ : Type) (client : Client σ) (d : ResourceData) (s : σ) (name : String),
        d.Get "definition" = Val.set [Val.map exampleBothConfig] →
        d.Get "app_name" = Val.str name →
        name ≠ "" → (client.ResolveID name s).1.2 = none →
        Event.createService { AppId := some (client.ResolveID name s).1.1, Definition := some dd }
            (client.CreateService
              { AppId := some (client.ResolveID name s).1.1, Definition := some dd }
              (client.ResolveID name s).2).1
          ∈ (resourceKoyebServiceCreate client d s).trace) :=
  both_sources_encoded_and_sent exampleBothConfig rfl
    (by simp [dockerBlocks, exampleBothConfig, GoMap.get, List.lookup, Val.asSetList])
    (by simp [gitBlocks, exampleBothConfig, GoMap.get, List.lookup, Val.asSetList])

/-- C4. For every app or service read whose remote get call fails with an HTTP
404 response, the read returns nil diagnostics, sets the resource id to the
empty string and leaves every attribute unchanged. -/
theorem read_not_found_clears_id {σ : Type}
    (flattenDomains : Option (List Domain) → String → Val) (client : Client σ)
    (d : ResourceData) (s : σ) :
    ((client.GetApp d.Id s).1.err.isSome = true →
      (client.GetApp d.Id s).1.resp = some { StatusCode := 404 } →
      (resourceKoyebAppRead flattenDomains client d s).exit = Exit.returned [] ∧
      (resourceKoyebAppRead flattenDomains client d s).d.Id = "" ∧
      (resourceKoyebAppRead flattenDomains client d s).d.attrs = d.attrs) ∧
    ((client.GetService d.Id s).1.err.isSome = true →
      (client.GetService d.Id s).1.resp = some { StatusCode := 404 } →
      (resourceKoyebServiceRead client d s).exit = Exit.returned [] ∧
      (resourceKoyebServiceRead client d s).d.Id = "" ∧
      (resourceKoyebServiceRead client d s).d.attrs = d.attrs) := by
  constructor
  · intro herr hresp
    rw [appRead_not_found flattenDomains client d s herr hresp]
    exact ⟨rfl, rfl, rfl⟩
  · intro herr hresp
    rw [serviceRead_not_found client d s herr hresp]
    exact ⟨rfl, rfl, rfl⟩

/-- Witness for C4: the app "demo-app" and a service read against `goneClient`,
whose get calls answer 404. -/
theorem read_not_found_clears_id_witness :
    ((resourceKoyebAppRead exampleFlattenDomains goneClient exampleAppData []).exit
        = Exit.returned [] ∧
      (resourceKoyebAppRead exampleFlattenDomains goneClient exampleAppData []).d.Id = "" ∧
      (resourceKoyebAppRead exampleFlattenDomains goneClient exampleAppData []).d.attrs
        = exampleAppData.attrs) ∧
    ((resourceKoyebServiceRead goneClient exampleServiceData []).exit = Exit.returned [] ∧
      (resourceKoyebServiceRead goneClient exampleServiceData []).d.Id = "" ∧
      (resourceKoyebServiceRead goneClient exampleServiceData []).d.attrs
        = exampleServiceData.attrs) :=
  ⟨(read_not_found_clears_id exampleFlattenDomains goneClient exampleAppData []).1 rfl rfl,
   (read_not_found_clears_id exampleFlattenDomains goneClient exampleServiceData []).2 rfl rfl⟩

/-- C5 (the code departs from it). The claim asks every read whose get call
fails with anything other than a 404, a transport failure without HTTP response
included, to return an error and never to crash.  In the code, when the get
call fails and carries no HTTP response, the read panics on `resp.StatusCode`;
only when a response is present and its status is not 404 does the read return
a non-nil error and leave the resource data unchanged. -/
theorem read_without_response_panics {σ : Type}
    (flattenDomains : Option (List Domain) → String → Val) (client : Client σ)
    (d : ResourceData) (s : σ) :
    ((client.GetApp d.Id s).1.err.isSome = true →
      ((client.GetApp d.Id s).1.resp = none →
        (resourceKoyebAppRead flattenDomains client d s).exit = Exit.panicked) ∧
      (∀ resp, (client.GetApp d.Id s).1.resp = some resp → resp.StatusCode ≠ 404 →
        (∃ diags, (resourceKoyebAppRead flattenDomains client d s).exit = Exit.returned diags ∧
          diags ≠ []) ∧
        (resourceKoyebAppRead flattenDomains client d s).d.Id = d.Id ∧
        (resourceKoyebAppRead flattenDomains client d s).d.attrs = d.attrs)) ∧
    ((client.GetService d.Id s).1.err.isSome = true →
      ((client.GetService d.Id s).1.resp = none →
        (resourceKoyebServiceRead client d s).exit = Exit.panicked) ∧
      (∀ resp, (client.GetService d.Id s).1.resp = some resp → resp.StatusCode ≠ 404 →
        (∃ diags, (resourceKoyebServiceRead client d s).exit = Exit.returned diags ∧
          diags ≠ []) ∧
        (resourceKoyebServiceRead client d s).d.Id = d.Id ∧
        (resourceKoyebServiceRead client d s).d.attrs = d.attrs)) := by
  constructor
  · intro herr
    constructor
    · intro hresp
      rw [appRead_no_response flattenDomains client d s herr hresp]
    · intro resp hresp hne
      rw [appRead_other_status flattenDomains client d s resp herr hresp hne]
      exact ⟨⟨_, rfl, Errorf_ne_nil _⟩, rfl, rfl⟩
  · intro herr
    constructor
    · intro hresp
      rw [serviceRead_no_response client d s herr hresp]
    · intro resp hresp hne
      rw [serviceRead_other_status client d s resp herr hresp hne]
      exact ⟨⟨_, rfl, Errorf_ne_nil _⟩, rfl, rfl⟩

/-- Witness for C5: reads against `unreachableClient`, whose get calls fail
without a response, panic. -/
theorem read_without_response_panics_witness :
    (resourceKoyebAppRead exampleFlattenDomains unreachableClient exampleAppData []).exit
      = Exit.panicked ∧
    (resourceKoyebServiceRead unreachableClient exampleServiceData []).exit = Exit.panicked :=
  ⟨((read_without_response_panics exampleFlattenDomains unreachableClient exampleAppData []).1
      rfl).1 rfl,
   ((read_without_response_panics exampleFlattenDomains unreachableClient exampleServiceData
      []).2 rfl).1 rfl⟩

/-- C6 fails on `goneClient`, whose delete calls answer 404: the service delete
and the app delete (its service list being empty) return an error and leave
the id as it was. -/
theorem delete_of_absent_resource_fails :
    (goneClient.DeleteService exampleServiceData.Id []).1.resp = some { StatusCode := 404 } ∧
    (resourceKoyebServiceDelete goneClient exampleServiceData []).exit =
      Exit.returned (Errorf "Error deleting service: %s (%v %v)") ∧
    (resourceKoyebServiceDelete goneClient exampleServiceData []).d.Id = "svc-1" ∧
    (goneClient.DeleteApp exampleAppData.Id []).1.resp = some { StatusCode := 404 } ∧
    (resourceKoyebAppDelete goneClient exampleAppData 1 []).exit =
      Exit.returned (Errorf "Error deleting app: %s (%v %v)") ∧
    (resourceKoyebAppDelete goneClient exampleAppData 1 []).d.Id = "demo-app-id" := by
  refine ⟨rfl, rfl, rfl, rfl, rfl, rfl⟩

/-- C6 as amended. When the remote delete call fails, by "not found" or in any
other way, delete returns a non-nil error and leaves the local id unchanged;
it returns no error and clears the local id when the remote delete call
succeeds.  This holds for `resourceKoyebServiceDelete`, and for
`resourceKoyebAppDelete` once a listing of its services succeeds with count
zero. -/
theorem delete_clears_id_only_on_success {σ : Type} (client : Client σ) (d : ResourceData)
    (s : σ) (fuel : Nat) :
    ((client.DeleteService d.Id s).1.err.isSome = true →
      (∃ diags, (resourceKoyebServiceDelete client d s).exit = Exit.returned diags ∧
        diags ≠ []) ∧
      (resourceKoyebServiceDelete client d s).d.Id = d.Id) ∧
    ((client.DeleteService d.Id s).1.err = none →
      (resourceKoyebServiceDelete client d s).exit = Exit.returned [] ∧
      (resourceKoyebServiceDelete client d s).d.Id = "") ∧
    ((client.ListServices d.Id "100" s).1.err = none →
      getCount (client.ListServices d.Id "100" s).1.res = 0 →
      ((client.DeleteApp d.Id (client.ListServices d.Id "100" s).2).1.err.isSome = true →
        (∃ diags, (resourceKoyebAppDelete client d (fuel + 1) s).exit = Exit.returned diags ∧
          diags ≠ []) ∧
        (resourceKoyebAppDelete client d (fuel + 1) s).d.Id = d.Id) ∧
      ((client.DeleteApp d.Id (client.ListServices d.Id "100" s).2).1.err = none →
        (resourceKoyebAppDelete client d (fuel + 1) s).exit = Exit.returned [] ∧
        (resourceKoyebAppDelete client d (fuel + 1) s).d.Id = "")) := by
  refine ⟨?_, ?_, ?_⟩
  · intro herr
    rw [serviceDelete_failed client d s herr]
    exact ⟨⟨_, rfl, Errorf_ne_nil _⟩, rfl⟩
  · intro herr
    rw [serviceDelete_ok client d s herr]
    exact ⟨rfl, rfl⟩
  · intro hlist hzero
    constructor
    · intro herr
      rw [appDelete_drained_failed client d fuel s hlist hzero herr]
      exact ⟨⟨_, rfl, Errorf_ne_nil _⟩, rfl⟩
    · intro herr
      rw [appDelete_drained_ok client d fuel s hlist hzero herr]
      exact ⟨rfl, rfl⟩

/-- Witness for C6 as amended: against `goneClient` both deletes fail and keep
the id; against `exampleClient` both succeed and clear it. -/
theorem delete_clears_id_only_on_success_witness :
    ((∃ diags, (resourceKoyebServiceDelete goneClient exampleServiceData []).exit
        = Exit.returned diags ∧ diags ≠ []) ∧
      (resourceKoyebServiceDelete goneClient exampleServiceData []).d.Id
        = exampleServiceData.Id) ∧
    ((resourceKoyebServiceDelete exampleClient exampleServiceData []).exit = Exit.returned [] ∧
      (resourceKoyebServiceDelete exampleClient exampleServiceData []).d.Id = "") ∧
    ((∃ diags, (resourceKoyebAppDelete goneClient exampleAppData 1 []).exit
        = Exit.returned diags ∧ diags ≠ []) ∧
      (resourceKoyebAppDelete goneClient exampleAppData 1 []).d.Id = exampleAppData.Id) ∧
    ((resourceKoyebAppDelete exampleClient exampleAppData 1 []).exit = Exit.returned [] ∧
      (resourceKoyebAppDelete exampleClient exampleAppData 1 []).d.Id = "") :=
  ⟨(delete_clears_id_only_on_success goneClient exampleServiceData [] 0).1 rfl,
   (delete_clears_id_only_on_success exampleClient exampleServiceData [] 0).2.1 rfl,
   ((delete_clears_id_only_on_success goneClient exampleAppData [] 0).2.2 rfl rfl).1 rfl,
   ((delete_clears_id_only_on_success exampleClient exampleAppData [] 0).2.2 rfl rfl).2 rfl⟩

/-- C7. For every page of N listed services of which M have status DELETING or
DELETED, and assuming every delete call succeeds, one pass of the inner loop
of the app deletion ends without error and issues exactly N - M
`DeleteService` calls and nothing else: one for each service whose status is
neither DELETING nor DELETED, in list order, with that service's id. -/
theorem one_pass_deletes_active_services {σ : Type} (client : Client σ)
    (services : List ServiceListItem) (s : σ)
    (hok : ∀ id s, (client.DeleteService id s).1.err = none) :
    (deleteListedServices client services s).1 = none ∧
    (deleteListedServices client services s).2.2.length =
      services.length - (services.filter skipped).length ∧
    List.Forall₂ (fun svc e => ∃ r, e = Event.deleteService svc.GetId r ∧ r.err = none)
      (services.filter (fun i => !skipped i)) (deleteListedServices client services s).2.2 := by
  obtain ⟨h1, -, h3⟩ := deleteListedServices_ok client (fun _ => True) hok
    (fun _ _ _ => trivial) services s trivial
  refine ⟨h1, ?_, h3⟩
  rw [← h3.length_eq, length_activeServices]

/-- Witness for C7: one pass over a page of three services, the second already
DELETING, against `exampleClient`. -/
theorem one_pass_deletes_active_services_witness :
    (deleteListedServices exampleClient
        [{ Id := some "svc-a", Status := some "HEALTHY" },
         { Id := some "svc-b", Status := some "DELETING" },
         { Id := some "svc-c", Status := some "STARTING" }] []).2.2.map
      (fun e => match e with
        | Event.deleteService id _ => id
        | _ => "") = ["svc-a", "svc-c"] ∧
    (deleteListedServices exampleClient
        [{ Id := some "svc-a", Status := some "HEALTHY" },
         { Id := some "svc-b", Status := some "DELETING" },
         { Id := some "svc-c", Status := some "STARTING" }] []).2.2.length = 3 - 1 :=
  ⟨rfl, (one_pass_deletes_active_services exampleClient
    [{ Id := some "svc-a", Status := some "HEALTHY" },
     { Id := some "svc-b", Status := some "DELETING" },
     { Id := some "svc-c", Status := some "STARTING" }] [] (fun _ _ => rfl)).2.1⟩

/-- C8. In every execution of `resourceKoyebAppDelete`, a `DeleteApp` call is
the last remote call of the operation, it is made for the id of the resource,
and the call immediately preceding it is a `ListServices` for that id that
succeeded and reported a count of zero. -/
theorem deleteApp_only_after_empty_listing {σ : Type} (client : Client σ) (d : ResourceData)
    (fuel : Nat) (s : σ) (pre post : List Event) (id : String) (r : ApiResult Unit)
    (h : (resourceKoyebAppDelete client d fuel s).trace = pre ++ Event.deleteApp id r :: post) :
    post = [] ∧ id = d.Id ∧
      ∃ pre0 rl, pre = pre0 ++ [Event.listServices d.Id "100" rl] ∧ rl.err = none ∧
        getCount rl.res = 0 := by
  have hmem : Event.deleteApp id r ∈ (resourceKoyebAppDelete client d fuel s).trace := by
    rw [h]; simp
  rcases appDelete_run client d fuel s with ⟨-, -, h3⟩ | ⟨p, e, diags, h1, h2, h3, -, -, -⟩ |
    ⟨p, rl, ra, h1, h2, h3, h4, -⟩
  · have := not_deleteApp_of_loopOk _ (h3 _ hmem)
    simp [Event.isDeleteApp] at this
  · rw [h1] at h
    obtain ⟨-, hy, -⟩ := last_deleteApp_unique p pre post e (Event.deleteApp id r)
      (fun z hz => not_deleteApp_of_loopOk z (h2 z hz)) rfl h
    rw [← hy] at h3
    simp [Event.loopFailed] at h3
  · have hsplit : p ++ [Event.listServices d.Id "100" rl, Event.deleteApp d.Id ra] =
        (p ++ [Event.listServices d.Id "100" rl]) ++ [Event.deleteApp d.Id ra] := by simp
    rw [h1, hsplit] at h
    obtain ⟨ha, hy, hb⟩ := last_deleteApp_unique (p ++ [Event.listServices d.Id "100" rl]) pre
      post (Event.deleteApp d.Id ra) (Event.deleteApp id r)
      (fun z hz => by
        rcases List.mem_append.mp hz with hz | hz
        · exact not_deleteApp_of_loopOk z (h2 z hz)
        · rw [List.mem_singleton.mp hz]; rfl) rfl h
    injection hy with hid _
    exact ⟨hb, hid, p, rl, ha, h3, h4⟩

/-- Witness for C8: the deletion of an app without services against
`exampleClient`; the trace is the listing followed by the `DeleteApp` call. -/
theorem deleteApp_only_after_empty_listing_witness :
    ([] : List Event) = [] ∧ "demo-app-id" = exampleAppData.Id ∧
      ∃ pre0 rl,
        [Event.listServices "demo-app-id" "100" (exampleClient.ListServices "demo-app-id" "100" []).1]
          = pre0 ++ [Event.listServices exampleAppData.Id "100" rl] ∧
        rl.err = none ∧ getCount rl.res = 0 :=
  deleteApp_only_after_empty_listing exampleClient exampleAppData 1 []
    [Event.listServices "demo-app-id" "100" (exampleClient.ListServices "demo-app-id" "100" []).1]
    [] "demo-app-id" (okResult ()) rfl

/-- C9. If a `ListServices` or `DeleteService` call inside the deletion loop
fails, `resourceKoyebAppDelete` returns a non-nil error at once: the failed call
is the last event of the operation, no `DeleteApp` call is made, and the
resource data, its id included, is left unchanged. -/
theorem loop_failure_aborts {σ : Type} (client : Client σ) (d : ResourceData)
    (fuel : Nat) (s : σ) (e : Event)
    (he : e ∈ (resourceKoyebAppDelete client d fuel s).trace) (hf : e.loopFailed = true) :
    (∃ pre, (resourceKoyebAppDelete client d fuel s).trace = pre ++ [e]) ∧
    (∃ diags, (resourceKoyebAppDelete client d fuel s).exit = Exit.returned diags ∧
      diags ≠ []) ∧
    (∀ x ∈ (resourceKoyebAppDelete client d fuel s).trace, x.isDeleteApp = false) ∧
    (resourceKoyebAppDelete client d fuel s).d.Id = d.Id ∧
    (resourceKoyebAppDelete client d fuel s).d.attrs = d.attrs := by
  have hnot : ∀ x : Event, x.loopOk = true → x ≠ e := by
    intro x hx hxe
    rw [hxe, ] at hx
    have := not_loopFailed_of_loopOk e hx
    rw [hf] at this
    cases this
  rcases appDelete_run client d fuel s with ⟨-, -, h3⟩ | ⟨p, e2, diags, h1, h2, h3, h4, h5, h6⟩ |
    ⟨p, rl, ra, h1, h2, h3, h4, -⟩
  · exact absurd rfl (hnot e (h3 e he))
  · rw [h1] at he
    have hee : e = e2 := by
      rcases List.mem_append.mp he with hp | hp
      · exact absurd rfl (hnot e (h2 e hp))
      · exact List.mem_singleton.mp hp
    subst hee
    refine ⟨⟨p, h1⟩, ⟨diags, h4, h5⟩, ?_, by rw [h6], by rw [h6]⟩
    intro x hx
    rw [h1] at hx
    rcases List.mem_append.mp hx with hp | hp
    · exact not_deleteApp_of_loopOk x (h2 x hp)
    · rw [List.mem_singleton.mp hp]
      exact not_deleteApp_of_loopFailed e hf
  · rw [h1] at he
    rcases List.mem_append.mp he with hp | hp
    · exact absurd rfl (hnot e (h2 e hp))
    · simp only [List.mem_cons, List.mem_singleton, List.not_mem_nil, or_false] at hp
      rcases hp with rfl | rfl
      · simp [Event.loopFailed, h3] at hf
      · simp [Event.loopFailed] at hf

/-- Witness for C9: deleting the app with `exampleServices` against
`failingClient`; the `DeleteService` call for "svc-b" fails and ends the
operation. -/
theorem loop_failure_aborts_witness :
    (∃ pre, (resourceKoyebAppDelete failingClient exampleAppData 5 exampleServices).trace
      = pre ++ [Event.deleteService "svc-b" (statusFailure 500)]) ∧
    (∃ diags, (resourceKoyebAppDelete failingClient exampleAppData 5 exampleServices).exit
      = Exit.returned diags ∧ diags ≠ []) ∧
    (∀ x ∈ (resourceKoyebAppDelete failingClient exampleAppData 5 exampleServices).trace,
      x.isDeleteApp = false) ∧
    (resourceKoyebAppDelete failingClient exampleAppData 5 exampleServices).d.Id
      = exampleAppData.Id ∧
    (resourceKoyebAppDelete failingClient exampleAppData 5 exampleServices).d.attrs
      = exampleAppData.attrs :=
  loop_failure_aborts failingClient exampleAppData 5 exampleServices
    (Event.deleteService "svc-b" (statusFailure 500)) (by decide) rfl

/-- C10 fails at `exampleSlowPages`: every call succeeds, the listing reports
count zero exactly from the third call on (k = 3) and the app has one active
service (N = 1); the operation ends without error after three `ListServices`
calls, yet it issues two `DeleteService` calls for "svc-a", one after each of
the two listings that still show the service as active. -/
theorem appDelete_repeats_deletes :
    (∀ n : Nat,
      ((scriptedClient exampleSlowPages).ListServices exampleAppData.Id "100" n).1.err = none) ∧
    (∀ (id : String) (n : Nat),
      ((scriptedClient exampleSlowPages).DeleteService id n).1.err = none) ∧
    (∀ n : Nat, ((scriptedClient exampleSlowPages).DeleteApp exampleAppData.Id n).1.err = none) ∧
    (∀ n : Nat,
      getCount ((scriptedClient exampleSlowPages).ListServices exampleAppData.Id "100" n).1.res
        = 0 ↔ 3 ≤ n + 1) ∧
    (activeServices (getServices
      ((scriptedClient exampleSlowPages).ListServices exampleAppData.Id "100" 0).1.res)).length
        = 1 ∧
    (resourceKoyebAppDelete (scriptedClient exampleSlowPages) exampleAppData 3 0).exit
      = Exit.returned [] ∧
    (resourceKoyebAppDelete (scriptedClient exampleSlowPages) exampleAppData 3 0).trace.countP
      Event.isListServices = 3 ∧
    (resourceKoyebAppDelete (scriptedClient exampleSlowPages) exampleAppData 3 0).trace.filterMap
      Event.deletedService = ["svc-a", "svc-a"] ∧
    (resourceKoyebAppDelete (scriptedClient exampleSlowPages) exampleAppData 3 0).trace.countP
      Event.isDeleteService = 2 := by
  refine ⟨fun _ => rfl, fun _ _ => rfl, fun _ => rfl, ?_, by decide, by decide, by decide,
    by decide, by decide⟩
  intro n
  rcases n with _ | _ | n
  · decide
  · decide
  · simp [scriptedClient, exampleSlowPages, okResult, getCount, ListServicesReply.GetCount]

/-- C10 as amended. Let every remote call succeed, let `polls` count the
listings the remote has answered, let a listing report count zero exactly from
the k-th one on, let the first listing show N active services (none when it
reports count zero) and the later non-empty listings only services in DELETING
or DELETED.
Then `resourceKoyebAppDelete`, given fuel for k iterations, returns no error
and clears the id after exactly k `ListServices` calls; its `DeleteService`
calls are the N calls for the active services of the first listing, in order;
its single `DeleteApp` call is the last event and follows the listing that
reports zero, so every `DeleteService` call precedes that listing. -/
theorem appDelete_drains {σ : Type} (client : Client σ) (d : ResourceData) (polls : σ → Nat)
    (k N : Nat) (s0 : σ) (fuel : Nat)
    (hlist : ∀ s, (client.ListServices d.Id "100" s).1.err = none)
    (hdel : ∀ id s, (client.DeleteService id s).1.err = none)
    (happ : ∀ s, (client.DeleteApp d.Id s).1.err = none)
    (hpl : ∀ s, polls (client.ListServices d.Id "100" s).2 = polls s + 1)
    (hpd : ∀ id s, polls (client.DeleteService id s).2 = polls s)
    (hs0 : polls s0 = 0) (hk : 0 < k)
    (hzero : ∀ s, getCount (client.ListServices d.Id "100" s).1.res = 0 ↔ k ≤ polls s + 1)
    (hcons : getCount (client.ListServices d.Id "100" s0).1.res = 0 →
      getServices (client.ListServices d.Id "100" s0).1.res = [])
    (hN : (activeServices (getServices (client.ListServices d.Id "100" s0).1.res)).length = N)
    (hlater : ∀ s, 0 < polls s → polls s + 1 < k →
      ∀ i ∈ getServices (client.ListServices d.Id "100" s).1.res, skipped i = true)
    (hfuel : k ≤ fuel) :
    (resourceKoyebAppDelete client d fuel s0).exit = Exit.returned [] ∧
    (resourceKoyebAppDelete client d fuel s0).d.Id = "" ∧
    (resourceKoyebAppDelete client d fuel s0).trace.countP Event.isListServices = k ∧
    (resourceKoyebAppDelete client d fuel s0).trace.filterMap Event.deletedService =
      (activeServices (getServices (client.ListServices d.Id "100" s0).1.res)).map
        ServiceListItem.GetId ∧
    (resourceKoyebAppDelete client d fuel s0).trace.countP Event.isDeleteService = N ∧
    (resourceKoyebAppDelete client d fuel s0).trace.countP Event.isDeleteApp = 1 ∧
    ∃ body rl ra, (resourceKoyebAppDelete client d fuel s0).trace =
        body ++ [Event.listServices d.Id "100" rl, Event.deleteApp d.Id ra] ∧
      getCount rl.res = 0 := by
  have hcount : ∀ t : List Event,
      t.countP Event.isDeleteService = (t.filterMap Event.deletedService).length := by
    intro t
    induction t with
    | nil => rfl
    | cons e t ih => cases e <;> simp [Event.isDeleteService, Event.deletedService, ih]
  suffices hmain :
      (resourceKoyebAppDelete client d fuel s0).exit = Exit.returned [] ∧
      (resourceKoyebAppDelete client d fuel s0).d = d.SetId "" ∧
      (resourceKoyebAppDelete client d fuel s0).trace.countP Event.isListServices = k ∧
      (resourceKoyebAppDelete client d fuel s0).trace.filterMap Event.deletedService =
        (activeServices (getServices (client.ListServices d.Id "100" s0).1.res)).map
          ServiceListItem.GetId ∧
      (resourceKoyebAppDelete client d fuel s0).trace.countP Event.isDeleteApp = 1 ∧
      ∃ body rl ra, (resourceKoyebAppDelete client d fuel s0).trace =
          body ++ [Event.listServices d.Id "100" rl, Event.deleteApp d.Id ra] ∧
        getCount rl.res = 0 by
    obtain ⟨h1, h2, h3, h4, h5, h6⟩ := hmain
    refine ⟨h1, by rw [h2]; rfl, h3, h4, ?_, h5, h6⟩
    rw [hcount, h4, List.length_map, hN]
  obtain ⟨f, rfl⟩ : ∃ f, fuel = f + 1 := ⟨fuel - 1, by omega⟩
  by_cases hk1 : k = 1
  · subst hk1
    have hz : getCount (client.ListServices d.Id "100" s0).1.res = 0 :=
      (hzero s0).mpr (by omega)
    rw [appDelete_drained_ok client d f s0 (hlist s0) hz (happ _)]
    refine ⟨rfl, rfl, by simp [Event.isListServices], ?_,
      by simp [Event.isDeleteApp, Event.isListServices], [], _, _, rfl, hz⟩
    rw [hcons hz]
    simp [Event.deletedService, activeServices]
  · have hnz : getCount (client.ListServices d.Id "100" s0).1.res ≠ 0 := by
      intro hz
      have := (hzero s0).mp hz
      omega
    obtain ⟨hl1, hl2, hl3⟩ := deleteListedServices_ok client (fun s => polls s = 1) hdel
      (fun id s hs => by show polls _ = 1; rw [hpd]; exact hs)
      (getServices (client.ListServices d.Id "100" s0).1.res)
      (client.ListServices d.Id "100" s0).2 (by show polls _ = 1; rw [hpl, hs0])
    obtain ⟨hc1, hc2, hc3⟩ := counts_of_deletes _ _ hl3
    have hl2 : polls (deleteListedServices client
        (getServices (client.ListServices d.Id "100" s0).1.res)
        (client.ListServices d.Id "100" s0).2).2.1 = 1 := hl2
    rw [appDelete_continue client d f s0 (hlist s0) hnz hl1]
    obtain ⟨h1, h2, h3, h4, h5, body, rl, ra, h6, h7⟩ :=
      appDelete_polls client d polls k hlist happ hpl hzero hlater (k - 1)
        (deleteListedServices client (getServices (client.ListServices d.Id "100" s0).1.res)
          (client.ListServices d.Id "100" s0).2).2.1 f (by rw [hl2]; omega)
        (by rw [hl2]; omega) (by omega) (by omega)
    refine ⟨h1, h2, ?_, ?_, ?_, ?_⟩
    · simp [Event.isListServices, h3, hc2]
      omega
    · simp [Event.deletedService, h4, hc1]
    · simp [Event.isDeleteApp, Event.isListServices, h5, hc3]
    · exact ⟨Event.listServices d.Id "100" (client.ListServices d.Id "100" s0).1 ::
        (deleteListedServices client (getServices (client.ListServices d.Id "100" s0).1.res)
          (client.ListServices d.Id "100" s0).2).2.2 ++ Event.sleep 2 :: body, rl, ra,
        by simp [h6], h7⟩

/-- Witness for C10, the scenario of the specification: three active services,
listed as being deleted in the second listing and gone in the third (k = 3);
three `DeleteService` calls, three `ListServices` calls, one `DeleteApp`. -/
theorem appDelete_drains_witness :
    (resourceKoyebAppDelete (scriptedClient examplePages) exampleAppData 3 0).exit
      = Exit.returned [] ∧
    (resourceKoyebAppDelete (scriptedClient examplePages) exampleAppData 3 0).d.Id = "" ∧
    (resourceKoyebAppDelete (scriptedClient examplePages) exampleAppData 3 0).trace.countP
      Event.isListServices = 3 ∧
    (resourceKoyebAppDelete (scriptedClient examplePages) exampleAppData 3 0).trace.filterMap
      Event.deletedService = ["svc-a", "svc-b", "svc-c"] ∧
    (resourceKoyebAppDelete (scriptedClient examplePages) exampleAppData 3 0).trace.countP
      Event.isDeleteService = 3 ∧
    (resourceKoyebAppDelete (scriptedClient examplePages) exampleAppData 3 0).trace.countP
      Event.isDeleteApp = 1 ∧
    ∃ body rl ra,
      (resourceKoyebAppDelete (scriptedClient examplePages) exampleAppData 3 0).trace =
        body ++ [Event.listServices exampleAppData.Id "100" rl,
          Event.deleteApp exampleAppData.Id ra] ∧
      getCount rl.res = 0 :=
  appDelete_drains (scriptedClient examplePages) exampleAppData (fun n => n) 3 3 0 3
    (fun _ => rfl) (fun _ _ => rfl) (fun _ => rfl) (fun _ => rfl) (fun _ _ => rfl) rfl
    (by decide)
    (by
      intro n
      rcases n with _ | _ | n
      · decide
      · decide
      · simp [scriptedClient, examplePages, okResult, getCount, ListServicesReply.GetCount])
    (by decide) rfl
    (by
      intro n h1 h2
      have h1 : 0 < n := h1
      have h2 : n + 1 < 3 := h2
      have hn : n = 1 := by omega
      subst hn
      decide)
    (le_refl 3)

/-- C11. For every service configuration, the update request of
`resourceKoyebServiceUpdate` is its first remote call, nothing but reads follow
it, and the definition it carries is `expandDeploymentDefinition` of the whole
current configuration.  In particular its ports are `expandPorts` of the
configured ports, the same ports that any earlier configuration with these
ports was encoded to, whatever else changed. -/
theorem update_sends_full_definition {σ : Type} (client : Client σ) (d : ResourceData)
    (s : σ) (cfg : GoMap) (hd : d.Get "definition" = Val.set [Val.map cfg])
    (hcfg : isDefinitionConfig cfg = true) :
    ∃ dd l ports rest,
      expandDeploymentDefinition cfg = some dd ∧
      (resourceKoyebServiceUpdate client d s).trace =
        Event.updateService d.Id { Definition := some dd }
          (client.UpdateService d.Id { Definition := some dd } s).1 :: rest ∧
      (∀ e ∈ rest, ∃ id r, e = Event.getService id r) ∧
      (cfg.get "ports").asSetList = some l ∧ expandPorts l = some ports ∧
      dd.Ports = some ports ∧
      ∀ old ddOld, expandDeploymentDefinition old = some ddOld →
        old.get "ports" = cfg.get "ports" → ddOld.Ports = dd.Ports := by
  obtain ⟨dd, hdd, -⟩ := expandDeploymentDefinition_total cfg hcfg
  obtain ⟨rest, htrace, hrest⟩ := update_trace client d s dd
    ((expandConfiguredDefinition_eq d cfg hd).trans hdd)
  obtain ⟨l, ports, hl, hports, hp⟩ := expand_ports cfg dd hdd
  refine ⟨dd, l, ports, rest, hdd, htrace, hrest, hl, hports, hp, ?_⟩
  intro old ddOld hold hsame
  obtain ⟨l2, ports2, hl2, hports2, hp2⟩ := expand_ports old ddOld hold
  rw [hsame, hl] at hl2
  cases hl2
  rw [hp, hp2, ← hports, ← hports2]

/-- Witness for C11, the scenario of the specification: the service "svc-1"
whose routes alone were changed (`exampleRoutesChangedConfig`) is updated
against `exampleClient`. -/
theorem update_sends_full_definition_witness :
    ∃ dd l ports rest,
      expandDeploymentDefinition exampleRoutesChangedConfig = some dd ∧
      (resourceKoyebServiceUpdate exampleClient exampleUpdatedServiceData []).trace =
        Event.updateService exampleUpdatedServiceData.Id { Definition := some dd }
          (exampleClient.UpdateService exampleUpdatedServiceData.Id
            { Definition := some dd } []).1 :: rest ∧
      (∀ e ∈ rest, ∃ id r, e = Event.getService id r) ∧
      (exampleRoutesChangedConfig.get "ports").asSetList = some l ∧
      expandPorts l = some ports ∧ dd.Ports = some ports ∧
      ∀ old ddOld, expandDeploymentDefinition old = some ddOld →
        old.get "ports" = exampleRoutesChangedConfig.get "ports" → ddOld.Ports = dd.Ports :=
  update_sends_full_definition exampleClient exampleUpdatedServiceData []
    exampleRoutesChangedConfig rfl rfl

/-- C12 fails at `exampleGitBlock`, a git block that sets none of the optional
fields: `expandGitSource` returns a `GitSource` whose `BuildCommand`,
`RunCommand` and `NoDeployOnPush` are all set, to the empty string and to
false.  When the keys are missing from the map altogether
(`exampleBareGitBlock`) the type assertion on the missing value panics and no
`GitSource` is produced at all. -/
theorem optional_git_fields_are_set :
    expandGitSource exampleGitBlock =
      some { Repository := some "github.com/koyeb/example", Branch := some "main",
             BuildCommand := some "", RunCommand := some "", NoDeployOnPush := some false } ∧
    ((expandGitSource exampleGitBlock).bind fun g => g.BuildCommand).isSome = true ∧
    ((expandGitSource exampleGitBlock).bind fun g => g.RunCommand).isSome = true ∧
    ((expandGitSource exampleGitBlock).bind fun g => g.NoDeployOnPush).isSome = true ∧
    expandGitSource exampleBareGitBlock = none := by
  refine ⟨rfl, rfl, rfl, rfl, rfl⟩

/-- C12 as amended. For every git block typed as `gitSchema` types it (the five
keys present, the optional ones holding the empty string or false when not
configured), `expandGitSource` returns a `GitSource` in which all five fields
are set, each to the value the block holds for it: a field that is not
configured is sent as the empty string or false. -/
theorem expandGitSource_sets_every_field (c : Val) (rest : List Val)
    (h : isGitEntry c = true) :
    ∃ m repository branch buildCommand runCommand noDeployOnPush,
      c = Val.map m ∧
      GoMap.get m "repository" = Val.str repository ∧
      GoMap.get m "branch" = Val.str branch ∧
      GoMap.get m "build_command" = Val.str buildCommand ∧
      GoMap.get m "run_command" = Val.str runCommand ∧
      GoMap.get m "no_deploy_on_push" = Val.bool noDeployOnPush ∧
      expandGitSource (c :: rest) =
        some { Repository := some repository, Branch := some branch,
               BuildCommand := some buildCommand, RunCommand := some runCommand,
               NoDeployOnPush := some noDeployOnPush } := by
  cases c <;> simp [isGitEntry] at h
  rename_i m
  obtain ⟨⟨⟨⟨h1, h2⟩, h3⟩, h4⟩, h5⟩ := h
  cases e1 : GoMap.get m "repository" <;> simp [e1, Val.isStr] at h1
  cases e2 : GoMap.get m "branch" <;> simp [e2, Val.isStr] at h2
  cases e3 : GoMap.get m "build_command" <;> simp [e3, Val.isStr] at h3
  cases e4 : GoMap.get m "run_command" <;> simp [e4, Val.isStr] at h4
  cases e5 : GoMap.get m "no_deploy_on_push" <;> simp [e5, Val.isBool] at h5
  rename_i repository branch buildCommand runCommand noDeployOnPush
  refine ⟨m, repository, branch, buildCommand, runCommand, noDeployOnPush, rfl, e1, e2,
    e3, e4, e5, ?_⟩
  simp [expandGitSource, Val.asMap, Val.asString, Val.asBool, toOpt, e1, e2, e3, e4, e5]

/-- Witness for C12 as amended, on the block of `exampleGitBlock`. -/
theorem expandGitSource_sets_every_field_witness :
    ∃ m repository branch buildCommand runCommand noDeployOnPush,
      Val.map [("repository", Val.str "github.com/koyeb/example"), ("branch", Val.str "main"),
        ("build_command", Val.str ""), ("run_command", Val.str ""),
        ("no_deploy_on_push", Val.bool false)] = Val.map m ∧
      GoMap.get m "repository" = Val.str repository ∧
      GoMap.get m "branch" = Val.str branch ∧
      GoMap.get m "build_command" = Val.str buildCommand ∧
      GoMap.get m "run_command" = Val.str runCommand ∧
      GoMap.get m "no_deploy_on_push" = Val.bool noDeployOnPush ∧
      expandGitSource exampleGitBlock =
        some { Repository := some repository, Branch := some branch,
               BuildCommand := some buildCommand, RunCommand := some runCommand,
               NoDeployOnPush := some noDeployOnPush } :=
  expandGitSource_sets_every_field _ [] rfl

/-- C13 fails at `exampleBothEnv`, an entry that supplies both a value and a
secret: `envSchema` accepts it and `expandEnvs` encodes it to a `DeploymentEnv`
with `Value` and `Secret` both set. -/
theorem env_with_value_and_secret_is_encoded :
    accepts envSchema exampleBothEnv = true ∧
    expandEnvs [exampleBothEnv] =
      some [{ Key := some "TOKEN", Value := some "plain", Secret := some "api-token" }] ∧
    ((expandEnv exampleBothEnv).bind fun e => e.Value).isSome = true ∧
    ((expandEnv exampleBothEnv).bind fun e => e.Secret).isSome = true := by
  refine ⟨rfl, rfl, rfl, rfl⟩

/-- C13 as amended. For every list of entries that `envSchema` accepts,
`expandEnvs` returns one `DeploymentEnv` per entry, in order, that carries the
key of the entry, has `Value` set exactly when the entry holds a non-empty
value and `Secret` set exactly when it holds a non-empty secret: the two are
set independently, so an entry supplying both is encoded with both. -/
theorem expandEnvs_sets_value_and_secret_independently (cfg : List Val)
    (hcfg : cfg.all (accepts envSchema) = true) :
    ∃ envs, expandEnvs cfg = some envs ∧ List.Forall₂ EnvEncoded cfg envs := by
  apply mapM_forall₂ expandEnv EnvEncoded cfg
  intro c hc
  have hacc : accepts envSchema c = true := List.all_eq_true.mp hcfg c hc
  have htyped := isEnvEntry_of_accepts c hacc
  cases c with
  | map m =>
    simp only [isEnvEntry, Bool.and_eq_true] at htyped
    obtain ⟨⟨hk, hv⟩, hs⟩ := htyped
    obtain ⟨key, hkey⟩ := asString_of_isStr _ hk
    have hkey2 : GoMap.get m "key" = Val.str key := by
      cases e : GoMap.get m "key" <;> simp [e, Val.asString] at hkey
      rw [hkey]
    obtain ⟨e, he, h1, h2, h3⟩ := expandEnv_map m key hkey2 hv hs
    exact ⟨e, he, m, key, rfl, hkey2, h1, h2, h3⟩
  | _ => simp [accepts] at hacc

/-- Witness for C13 as amended, on the entry `exampleBothEnv`. -/
theorem expandEnvs_sets_value_and_secret_independently_witness :
    ∃ envs, expandEnvs [exampleBothEnv] = some envs ∧
      List.Forall₂ EnvEncoded [exampleBothEnv] envs :=
  expandEnvs_sets_value_and_secret_independently [exampleBothEnv] rfl

/-- C14 fails at `exampleBadRoutes`: `routeSchema` accepts a route with the
empty path and a route whose path does not begin with "/", `expandRoutes`
encodes both with the path as configured, and a service update sends them to
the remote in its `UpdateService` call. -/
theorem bad_route_paths_not_rejected :
    exampleBadRoutes.all (accepts routeSchema) = true ∧
    startsWithSlash "" = false ∧ startsWithSlash "api" = false ∧
    expandRoutes exampleBadRoutes =
      some [{ Port := some 8080, Path := some "" }, { Port := some 8080, Path := some "api" }] ∧
    (resourceKoyebServiceUpdate exampleClient exampleBadRoutesServiceData []).trace.head?.bind
        Event.updatedRoutes =
      some [{ Port := some 8080, Path := some "" }, { Port := some 8080, Path := some "api" }] := by
  refine ⟨rfl, rfl, rfl, rfl, rfl⟩

/-- C14 as amended. `routeSchema` validates the port alone: every route entry
it accepts has a port between 1 and 65535 and a string as path, and
`expandRoutes` encodes each entry, in order, with that port and that path
unchanged; and it accepts every string as path, the empty one and those not
beginning with "/" included. -/
theorem routeSchema_validates_port_only (cfg : List Val)
    (hcfg : cfg.all (accepts routeSchema) = true) :
    (∃ routes, expandRoutes cfg = some routes ∧ List.Forall₂ RouteEncoded cfg routes) ∧
    ∀ (n : Int) (path : String), 1 ≤ n → n ≤ 65535 →
      accepts routeSchema (Val.map [("port", Val.int n), ("path", Val.str path)]) = true := by
  constructor
  · apply mapM_forall₂ expandRoute RouteEncoded cfg
    intro c hc
    exact expandRoute_of_accepts c (List.all_eq_true.mp hcfg c hc)
  · intro n path h1 h2
    simp [accepts, routeSchema, Schema.accepts, ValueType.holds, IntBetween, GoMap.get,
      List.lookup, h1, h2]

/-- Witness for C14 as amended, on `exampleBadRoutes`. -/
theorem routeSchema_validates_port_only_witness :
    (∃ routes, expandRoutes exampleBadRoutes = some routes ∧
      List.Forall₂ RouteEncoded exampleBadRoutes routes) ∧
    ∀ (n : Int) (path : String), 1 ≤ n → n ≤ 65535 →
      accepts routeSchema (Val.map [("port", Val.int n), ("path", Val.str path)]) = true :=
  routeSchema_validates_port_only exampleBadRoutes rfl

/-- C15. For every service create with a non-empty `app_name`: if resolving the
name fails, `resourceKoyebServiceCreate` returns a non-nil error, its only
remote call is the resolution (no `CreateService` call) and the resource data,
its id included, is left as it was; if the name resolves to the id I, the next
call is `CreateService` with `AppId` I and with `expandDeploymentDefinition` of
the configured definition as `Definition`, and nothing but reads follow. -/
theorem create_resolves_app_name {σ : Type} (client : Client σ) (d : ResourceData) (s : σ)
    (name : String) (hname : d.Get "app_name" = Val.str name) (hne : name ≠ "") :
    ((client.ResolveID name s).1.2.isSome = true →
      (∃ diags, (resourceKoyebServiceCreate client d s).exit = Exit.returned diags ∧
        diags ≠ []) ∧
      (resourceKoyebServiceCreate client d s).d = d ∧
      (resourceKoyebServiceCreate client d s).trace =
        [Event.resolveID name (client.ResolveID name s).1.1 (client.ResolveID name s).1.2]) ∧
    ((client.ResolveID name s).1.2 = none →
      ∀ cfg, d.Get "definition" = Val.set [Val.map cfg] → isDefinitionConfig cfg = true →
      ∃ dd rest, expandDeploymentDefinition cfg = some dd ∧
        (resourceKoyebServiceCreate client d s).trace =
          Event.resolveID name (client.ResolveID name s).1.1 none ::
          Event.createService
            { AppId := some (client.ResolveID name s).1.1, Definition := some dd }
            (client.CreateService
              { AppId := some (client.ResolveID name s).1.1, Definition := some dd }
              (client.ResolveID name s).2).1 :: rest ∧
        ∀ e ∈ rest, ∃ id r, e = Event.getService id r) := by
  constructor
  · intro hres
    have h := resolveAppId_failed client name s hne hres
    rw [serviceCreate_unresolved client d s name _ hname (by rw [h])]
    rw [h]
    exact ⟨⟨_, rfl, Errorf_ne_nil _⟩, rfl, rfl⟩
  · intro hres cfg hd hcfg
    obtain ⟨dd, hdd, -⟩ := expandDeploymentDefinition_total cfg hcfg
    have h := resolveAppId_ok client name s hne hres
    rw [serviceCreate_resolved client d s name (client.ResolveID name s).1.1 dd hname
      (by rw [h]) ((expandConfiguredDefinition_eq d cfg hd).trans hdd)]
    rw [h]
    obtain ⟨rest, hrest, hreads⟩ := createServiceCall_trace client d
      (client.ResolveID name s).1.1 dd (client.ResolveID name s).2
    refine ⟨dd, rest, hdd, ?_, hreads⟩
    show [Event.resolveID name (client.ResolveID name s).1.1 none] ++
      (createServiceCall client d (client.ResolveID name s).1.1 dd
        (client.ResolveID name s).2).trace = _
    rw [hrest]
    rfl

/-- Witness for C15: the new service of app "demo-app" is created against
`unknownAppClient`, where the name does not resolve, and against
`exampleClient`, where it resolves to "id-of-demo-app". -/
theorem create_resolves_app_name_witness :
    ((∃ diags, (resourceKoyebServiceCreate unknownAppClient exampleNewServiceData []).exit
        = Exit.returned diags ∧ diags ≠ []) ∧
      (resourceKoyebServiceCreate unknownAppClient exampleNewServiceData []).d
        = exampleNewServiceData ∧
      (resourceKoyebServiceCreate unknownAppClient exampleNewServiceData []).trace =
        [Event.resolveID "demo-app" "" (some "app not found")]) ∧
    (∃ dd rest, expandDeploymentDefinition exampleDockerConfig = some dd ∧
      (resourceKoyebServiceCreate exampleClient exampleNewServiceData []).trace =
        Event.resolveID "demo-app" "id-of-demo-app" none ::
        Event.createService { AppId := some "id-of-demo-app", Definition := some dd }
          (exampleClient.CreateService
            { AppId := some "id-of-demo-app", Definition := some dd } []).1 :: rest ∧
      ∀ e ∈ rest, ∃ id r, e = Event.getService id r) :=
  ⟨(create_resolves_app_name unknownAppClient exampleNewServiceData [] "demo-app" rfl
      (by decide)).1 rfl,
   (create_resolves_app_name exampleClient exampleNewServiceData [] "demo-app" rfl
      (by decide)).2 rfl exampleDockerConfig rfl rfl⟩

/-- C16. For every app or service create whose remote create call fails, the
create operation returns a non-nil error, leaves the resource data as it was
(so a resource without id stays without id) and performs no read: for the app
the `CreateApp` call is its only remote call, for the service the
`CreateService` call is its last one and only the name resolution precedes
it. -/
theorem create_failure_leaves_resource_absent {σ : Type}
    (flattenDomains : Option (List Domain) → String → Val) (client : Client σ)
    (d : ResourceData) (s : σ) (name : String) :
    (d.Get "name" = Val.str name →
      (client.CreateApp { Name := some name } s).1.err.isSome = true →
      (∃ diags, (resourceKoyebAppCreate flattenDomains client d s).exit = Exit.returned diags ∧
        diags ≠ []) ∧
      (resourceKoyebAppCreate flattenDomains client d s).d = d ∧
      (resourceKoyebAppCreate flattenDomains client d s).trace =
        [Event.createApp { Name := some name } (client.CreateApp { Name := some name } s).1] ∧
      ∀ e ∈ (resourceKoyebAppCreate flattenDomains client d s).trace, e.isRead = false) ∧
    (∀ (appId : String) (dd : DeploymentDefinition),
      d.Get "app_name" = Val.str name →
      (resolveAppId client name s).1 = Except.ok appId →
      expandConfiguredDefinition d = some dd →
      (client.CreateService { AppId := some appId, Definition := some dd }
        (resolveAppId client name s).2.1).1.err.isSome = true →
      (∃ diags, (resourceKoyebServiceCreate client d s).exit = Exit.returned diags ∧
        diags ≠ []) ∧
      (resourceKoyebServiceCreate client d s).d = d ∧
      (resourceKoyebServiceCreate client d s).trace =
        (resolveAppId client name s).2.2 ++
          [Event.createService { AppId := some appId, Definition := some dd }
            (client.CreateService { AppId := some appId, Definition := some dd }
              (resolveAppId client name s).2.1).1] ∧
      ∀ e ∈ (resourceKoyebServiceCreate client d s).trace, e.isRead = false) := by
  constructor
  · intro hname herr
    rw [appCreate_failed flattenDomains client d s name hname herr]
    refine ⟨⟨_, rfl, Errorf_ne_nil _⟩, rfl, rfl, ?_⟩
    intro e he
    simp only [List.mem_singleton] at he
    subst he
    rfl
  · intro appId dd hname hres hdd herr
    rw [serviceCreate_resolved client d s name appId dd hname hres hdd,
      createServiceCall_failed client d appId dd _ herr]
    refine ⟨⟨_, rfl, Errorf_ne_nil _⟩, rfl, rfl, ?_⟩
    intro e he
    simp only [List.mem_append, List.mem_singleton] at he
    rcases he with he | he
    · obtain ⟨id, err, rfl⟩ := resolveAppId_events client name s e he
      rfl
    · subst he
      rfl

/-- Witness for C16: the new app and the new service of app "demo-app" are
created against `rejectingClient`, whose create calls fail. -/
theorem create_failure_leaves_resource_absent_witness :
    ((∃ diags, (resourceKoyebAppCreate exampleFlattenDomains rejectingClient
          exampleNewAppData []).exit = Exit.returned diags ∧ diags ≠ []) ∧
      (resourceKoyebAppCreate exampleFlattenDomains rejectingClient exampleNewAppData []).d
        = exampleNewAppData ∧
      (resourceKoyebAppCreate exampleFlattenDomains rejectingClient exampleNewAppData []).trace =
        [Event.createApp { Name := some "demo-app" }
          (rejectingClient.CreateApp { Name := some "demo-app" } []).1] ∧
      ∀ e ∈ (resourceKoyebAppCreate exampleFlattenDomains rejectingClient
          exampleNewAppData []).trace, e.isRead = false) ∧
    ((∃ diags, (resourceKoyebServiceCreate rejectingClient exampleNewServiceData []).exit
        = Exit.returned diags ∧ diags ≠ []) ∧
      (resourceKoyebServiceCreate rejectingClient exampleNewServiceData []).d
        = exampleNewServiceData ∧
      (resourceKoyebServiceCreate rejectingClient exampleNewServiceData []).trace =
        (resolveAppId rejectingClient "demo-app" []).2.2 ++
          [Event.createService
            { AppId := some "id-of-demo-app", Definition := some exampleDockerDefinition }
            (rejectingClient.CreateService
              { AppId := some "id-of-demo-app", Definition := some exampleDockerDefinition }
              (resolveAppId rejectingClient "demo-app" []).2.1).1] ∧
      ∀ e ∈ (resourceKoyebServiceCreate rejectingClient exampleNewServiceData []).trace,
        e.isRead = false) :=
  ⟨(create_failure_leaves_resource_absent exampleFlattenDomains rejectingClient
      exampleNewAppData [] "demo-app").1 rfl rfl,
   (create_failure_leaves_resource_absent exampleFlattenDomains rejectingClient
      exampleNewServiceData [] "demo-app").2 "id-of-demo-app" exampleDockerDefinition
      rfl rfl rfl rfl⟩

/-- C17. For every app read whose remote get succeeds with app A, and for every
app create whose re-read succeeds with app A, the operation returns no error
and the resulting resource data has the id of A, the name of A as `name` and
the organization id of A as `organization_id`; so when the remote echoes the
configured name n, the created app exposes n as its `name`. -/
theorem read_sets_app_attributes {σ : Type}
    (flattenDomains : Option (List Domain) → String → Val) (client : Client σ)
    (d : ResourceData) (s : σ) (A : App) :
    ((client.GetApp d.Id s).1.err = none →
      (client.GetApp d.Id s).1.res = some { App := some A } →
      (resourceKoyebAppRead flattenDomains client d s).exit = Exit.returned [] ∧
      (resourceKoyebAppRead flattenDomains client d s).d.Id = A.GetId ∧
      (resourceKoyebAppRead flattenDomains client d s).d.Get "name" = Val.str A.GetName ∧
      (resourceKoyebAppRead flattenDomains client d s).d.Get "organization_id" =
        Val.str A.GetOrganizationId) ∧
    (∀ (n echoed : String) (created : App),
      d.Get "name" = Val.str n →
      (client.CreateApp { Name := some n } s).1.err = none →
      (client.CreateApp { Name := some n } s).1.res = some { App := some created } →
      created.Name = some echoed →
      (client.GetApp created.GetId (client.CreateApp { Name := some n } s).2).1.err = none →
      (client.GetApp created.GetId (client.CreateApp { Name := some n } s).2).1.res =
        some { App := some A } →
      (resourceKoyebAppCreate flattenDomains client d s).exit = Exit.returned [] ∧
      (resourceKoyebAppCreate flattenDomains client d s).d.Id = A.GetId ∧
      (resourceKoyebAppCreate flattenDomains client d s).d.Get "name" = Val.str A.GetName ∧
      (resourceKoyebAppCreate flattenDomains client d s).d.Get "organization_id" =
        Val.str A.GetOrganizationId ∧
      (A.Name = some n →
        (resourceKoyebAppCreate flattenDomains client d s).d.Get "name" = Val.str n)) := by
  constructor
  · intro herr hres
    rw [appRead_ok flattenDomains client d s A herr hres]
    exact ⟨rfl, setAppAttribute_id _ _ _, setAppAttribute_name _ _ _,
      setAppAttribute_organization_id _ _ _⟩
  · intro n echoed created hname herr hres hecho hgerr hgres
    rw [appCreate_ok flattenDomains client d s n echoed created hname herr hres hecho]
    have hid : (setAppAttribute flattenDomains d created).Id = created.GetId :=
      setAppAttribute_id _ _ _
    rw [appRead_ok flattenDomains client (setAppAttribute flattenDomains d created) _ A
      (by rw [hid]; exact hgerr) (by rw [hid]; exact hgres)]
    refine ⟨rfl, setAppAttribute_id _ _ _, setAppAttribute_name _ _ _,
      setAppAttribute_organization_id _ _ _, ?_⟩
    intro hA
    show (setAppAttribute flattenDomains (setAppAttribute flattenDomains d created) A).Get
      "name" = Val.str n
    rw [setAppAttribute_name]
    simp [App.GetName, getString, hA]

/-- Witness for C17: the app "demo-app" is read, and a new app named "demo-app"
is created and re-read, against `exampleClient`. -/
theorem read_sets_app_attributes_witness :
    ((resourceKoyebAppRead exampleFlattenDomains exampleClient exampleAppData []).exit
        = Exit.returned [] ∧
      (resourceKoyebAppRead exampleFlattenDomains exampleClient exampleAppData []).d.Id
        = "demo-app-id" ∧
      (resourceKoyebAppRead exampleFlattenDomains exampleClient exampleAppData []).d.Get "name"
        = Val.str "demo-app" ∧
      (resourceKoyebAppRead exampleFlattenDomains exampleClient exampleAppData []).d.Get
        "organization_id" = Val.str "") ∧
    ((resourceKoyebAppCreate exampleFlattenDomains exampleClient exampleNewAppData []).exit
        = Exit.returned [] ∧
      (resourceKoyebAppCreate exampleFlattenDomains exampleClient exampleNewAppData []).d.Id
        = "demo-app-id" ∧
      (resourceKoyebAppCreate exampleFlattenDomains exampleClient exampleNewAppData []).d.Get
        "name" = Val.str "demo-app" ∧
      (resourceKoyebAppCreate exampleFlattenDomains exampleClient exampleNewAppData []).d.Get
        "organization_id" = Val.str "" ∧
      ((some "demo-app" : Option String) = some "demo-app" →
        (resourceKoyebAppCreate exampleFlattenDomains exampleClient exampleNewAppData []).d.Get
          "name" = Val.str "demo-app")) :=
  ⟨(read_sets_app_attributes exampleFlattenDomains exampleClient exampleAppData []
      { Id := some "demo-app-id", Name := some "demo-app" }).1 rfl rfl,
   (read_sets_app_attributes exampleFlattenDomains exampleClient exampleNewAppData []
      { Id := some "demo-app-id", Name := some "demo-app" }).2 "demo-app" "demo-app"
      { Id := some "demo-app-id", Name := some "demo-app" } rfl rfl rfl rfl rfl rfl⟩

/-- C18. Each list encoder (`expandEnvs`, `expandPorts`, `expandRoutes`,
`expandInstanceTypes`, `expandRegions`) preserves multiplicity and order: on
every list of entries of its schema type, duplicates included, it returns a
list of the same length whose i-th element is what its loop body builds from
the i-th entry alone. -/
theorem list_encoders_preserve_order (envs ports routes instanceTypes regions : List Val)
    (henvs : envs.all isEnvEntry = true) (hports : ports.all isPortEntry = true)
    (hroutes : routes.all isRouteEntry = true)
    (htypes : instanceTypes.all isInstanceTypeEntry = true)
    (hregions : regions.all Val.isStr = true) :
    (∃ out, expandEnvs envs = some out ∧ out.length = envs.length ∧
      ∀ i : Nat, out[i]? = envs[i]?.bind expandEnv) ∧
    (∃ out, expandPorts ports = some out ∧ out.length = ports.length ∧
      ∀ i : Nat, out[i]? = ports[i]?.bind expandPort) ∧
    (∃ out, expandRoutes routes = some out ∧ out.length = routes.length ∧
      ∀ i : Nat, out[i]? = routes[i]?.bind expandRoute) ∧
    (∃ out, expandInstanceTypes instanceTypes = some out ∧
      out.length = instanceTypes.length ∧
      ∀ i : Nat, out[i]? = instanceTypes[i]?.bind expandInstanceType) ∧
    (∃ out, expandRegions regions = some out ∧ out.length = regions.length ∧
      ∀ i : Nat, out[i]? = regions[i]?.bind Val.asString) :=
  ⟨mapM_ordered expandEnv isEnvEntry expandEnv_total envs henvs,
   mapM_ordered expandPort isPortEntry expandPort_total ports hports,
   mapM_ordered expandRoute isRouteEntry expandRoute_total routes hroutes,
   mapM_ordered expandInstanceType isInstanceTypeEntry expandInstanceType_total
     instanceTypes htypes,
   mapM_ordered Val.asString Val.isStr asString_of_isStr regions hregions⟩

/-- Witness for C18, on lists with duplicate entries. -/
theorem list_encoders_preserve_order_witness :
    (∃ out, expandEnvs exampleDuplicateEnvs = some out ∧
      out.length = exampleDuplicateEnvs.length ∧
      ∀ i : Nat, out[i]? = exampleDuplicateEnvs[i]?.bind expandEnv) ∧
    (∃ out, expandPorts exampleDuplicatePorts = some out ∧
      out.length = exampleDuplicatePorts.length ∧
      ∀ i : Nat, out[i]? = exampleDuplicatePorts[i]?.bind expandPort) ∧
    (∃ out, expandRoutes exampleDuplicateRoutes = some out ∧
      out.length = exampleDuplicateRoutes.length ∧
      ∀ i : Nat, out[i]? = exampleDuplicateRoutes[i]?.bind expandRoute) ∧
    (∃ out, expandInstanceTypes exampleDuplicateInstanceTypes = some out ∧
      out.length = exampleDuplicateInstanceTypes.length ∧
      ∀ i : Nat, out[i]? = exampleDuplicateInstanceTypes[i]?.bind expandInstanceType) ∧
    (∃ out, expandRegions exampleDuplicateRegions = some out ∧
      out.length = exampleDuplicateRegions.length ∧
      ∀ i : Nat, out[i]? = exampleDuplicateRegions[i]?.bind Val.asString) :=
  list_encoders_preserve_order exampleDuplicateEnvs exampleDuplicatePorts
    exampleDuplicateRoutes exampleDuplicateInstanceTypes exampleDuplicateRegions
    rfl rfl rfl rfl rfl

/-- C19. `flattenService` returns the empty list for every service: the map it
fills with id, name and timestamps is never appended to the result, so the
result has no element and is the same for any two services. -/
theorem flattenService_returns_empty (service : Service) :
    flattenService service = [] ∧ (flattenService service).length = 0 ∧
      ∀ other : Service, flattenService other = flattenService service := by
  refine ⟨?_, ?_, ?_⟩
  · simp only [flattenService]
  · simp only [flattenService, List.length_nil]
  · intro other
    simp only [flattenService]

end Koyeb
